import Mathlib

/-!
Verification of the cloudctl session-lifecycle engine (Go sources under
src/) against its natural-language specification.

Modelling conventions (shallow embedding):
* Go strings are modelled as lists of characters (GoStr), so that byte-level
  claims about files become decidable list equalities.
* Go time.Time is modelled as an absolute instant with whole seconds and a
  sub-second nanosecond component (GoTime).  time.Format(time.RFC3339)
  truncates to whole seconds and is injective on them, and time.Parse
  inverts it on its own output; we model the rendered text as the decimal
  image of the whole-second timestamp, which preserves exactly these facts.
* fmt.Sprintf with a %d verb and fmt.Sscanf with a %d verb are modelled by
  the decimal codec below; Sscanf on a non-matching string (in particular
  the empty one) leaves the scanned int32 equal to 0.
* AES-256-GCM (crypto.go) is modelled symbolically: sealing records the
  plaintext, the key and the fresh nonce, and opening succeeds exactly
  under the sealing key, returning the plaintext.  This is the standard
  symbolic abstraction of an AEAD together with the SHA-256 key-derivation
  step, which is injective for our purposes.  The base64 layer is a
  bijection and is absorbed into the representation of ciphertext fields.
-/

/-- A Go string, as a list of characters. -/
abbrev GoStr := List Char

/-- Go unicode.IsSpace restricted to the ASCII whitespace characters
(the only ones the repository's files contain). -/
def isGoSpace (c : Char) : Bool :=
  c == ' ' || c == '\t' || c == '\n' || c == '\r' || c == '\x0b' || c == '\x0c'

/-- Go strings.TrimSpace. -/
def trimSpace (s : GoStr) : GoStr :=
  ((s.dropWhile isGoSpace).reverse.dropWhile isGoSpace).reverse

/-- Go strings.HasPrefix. -/
def goHasPfx (pre s : GoStr) : Bool := pre.isPrefixOf s

/-- Go strings.HasSuffix. -/
def goHasSfx (suf s : GoStr) : Bool := suf.reverse.isPrefixOf s.reverse

/-- Go strings.Trim with a cutset: remove leading and trailing characters
belonging to the cutset. -/
def goTrimCutset (cut : GoStr) (s : GoStr) : GoStr :=
  ((s.dropWhile (cut.contains ·)).reverse.dropWhile (cut.contains ·)).reverse

/-- The character for a decimal digit. -/
def digitChar (d : Nat) : Char := Char.ofNat (48 + d)

/-- The decimal value of a digit character. -/
def digitVal (c : Char) : Nat := c.toNat - 48

/-- Little-endian decimal digits, computed with a structural fuel so that
the kernel can evaluate it on concrete numbers. -/
def natToDigitsRev : Nat → Nat → List Nat
  | 0, _ => []
  | fuel + 1, n => if n = 0 then [] else (n % 10) :: natToDigitsRev fuel (n / 10)

/-- Decimal rendering of a natural number, as Go fmt's %d produces it. -/
def formatNat (n : Nat) : GoStr :=
  if n = 0 then ['0'] else ((natToDigitsRev n n).map digitChar).reverse

theorem natToDigitsRev_eq_digits :
    ∀ fuel n : Nat, n ≤ fuel → natToDigitsRev fuel n = Nat.digits 10 n := by
  intro fuel
  induction fuel with
  | zero =>
    intro n hn
    interval_cases n
    simp [natToDigitsRev]
  | succ fuel ih =>
    intro n hn
    by_cases h0 : n = 0
    · subst h0
      simp [natToDigitsRev]
    · rw [show natToDigitsRev (fuel + 1) n = (n % 10) :: natToDigitsRev fuel (n / 10) from by
        simp [natToDigitsRev, h0]]
      have hdiv : n / 10 < n := Nat.div_lt_self (Nat.pos_of_ne_zero h0) (by norm_num)
      rw [ih (n / 10) (by omega)]
      rw [Nat.digits_def' (by norm_num : 1 < 10) (Nat.pos_of_ne_zero h0)]

theorem formatNat_eq_digits (n : Nat) :
    formatNat n = if n = 0 then ['0'] else ((Nat.digits 10 n).map digitChar).reverse := by
  unfold formatNat
  rw [natToDigitsRev_eq_digits n n le_rfl]

/-- Decimal value of a digit string (most significant digit first). -/
def parseDigitsNat (cs : GoStr) : Nat :=
  Nat.ofDigits 10 ((cs.map digitVal).reverse)

/-- Decimal rendering of an integer, as Go fmt's %d produces it. -/
def formatInt (i : Int) : GoStr :=
  if i < 0 then '-' :: formatNat i.natAbs else formatNat i.toNat

/-- Go fmt.Sscanf with a %d verb into an integer variable: scanning the
empty string fails and leaves the variable at its zero value 0. -/
def scanGoInt (cs : GoStr) : Int :=
  match cs with
  | [] => 0
  | c :: rest => if c = '-' then -(parseDigitsNat rest : Int) else (parseDigitsNat (c :: rest) : Int)

theorem digitVal_digitChar {d : Nat} (hd : d < 10) : digitVal (digitChar d) = d := by
  interval_cases d <;> decide

theorem mem_formatNat {c : Char} {n : Nat} (h : c ∈ formatNat n) :
    ∃ d, d < 10 ∧ c = digitChar d := by
  rw [formatNat_eq_digits] at h
  split at h
  · simp at h
    exact ⟨0, by norm_num, h⟩
  · rename_i hn
    rw [List.mem_reverse, List.mem_map] at h
    obtain ⟨d, hd, hc⟩ := h
    exact ⟨d, Nat.digits_lt_base (by norm_num) hd, hc.symm⟩

theorem parseDigitsNat_formatNat (n : Nat) : parseDigitsNat (formatNat n) = n := by
  rw [formatNat_eq_digits]
  split
  · rename_i h
    subst h
    decide
  · unfold parseDigitsNat
    rw [List.map_reverse, List.reverse_reverse, List.map_map]
    have hmap : (Nat.digits 10 n).map (digitVal ∘ digitChar) = (Nat.digits 10 n).map id := by
      apply List.map_congr_left
      intro d hd
      exact digitVal_digitChar (Nat.digits_lt_base (by norm_num) hd)
    rw [hmap, List.map_id, Nat.ofDigits_digits]

theorem formatNat_ne_nil (n : Nat) : formatNat n ≠ [] := by
  rw [formatNat_eq_digits]
  split
  · simp
  · rename_i hn
    simp only [ne_eq, List.reverse_eq_nil_iff, List.map_eq_nil_iff]
    exact Nat.digits_ne_nil_iff_ne_zero.mpr hn

theorem head_formatNat_ne_dash (n : Nat) (c : Char) (rest : GoStr)
    (h : formatNat n = c :: rest) : c ≠ '-' := by
  have hc : c ∈ formatNat n := by rw [h]; exact List.mem_cons_self c rest
  obtain ⟨d, hd, hcd⟩ := mem_formatNat hc
  subst hcd
  interval_cases d <;> decide

theorem scanGoInt_formatInt (i : Int) : scanGoInt (formatInt i) = i := by
  unfold formatInt
  split
  · rename_i hneg
    have h1 : scanGoInt ('-' :: formatNat i.natAbs) = -(parseDigitsNat (formatNat i.natAbs) : Int) := by
      simp [scanGoInt]
    rw [h1, parseDigitsNat_formatNat]
    omega
  · rename_i hpos
    rcases hcons : formatNat i.toNat with _ | ⟨c, rest⟩
    · exact absurd hcons (formatNat_ne_nil _)
    · have hdash := head_formatNat_ne_dash _ _ _ hcons
      have h1 : scanGoInt (c :: rest) = (parseDigitsNat (c :: rest) : Int) := by
        simp [scanGoInt, hdash]
      rw [h1, ← hcons, parseDigitsNat_formatNat]
      omega

/-- Go time.Time: an absolute instant with whole seconds on an abstract
timeline and a sub-second nanosecond component. -/
structure GoTime where
  sec : Int
  nsec : Nat
deriving DecidableEq

/-- Go t.After(u): strictly later. -/
def GoTime.after (a b : GoTime) : Bool :=
  b.sec < a.sec || (a.sec == b.sec && b.nsec < a.nsec)

/-- Go t.Before(u): strictly earlier. -/
def GoTime.before (a b : GoTime) : Bool :=
  a.sec < b.sec || (a.sec == b.sec && a.nsec < b.nsec)

/-- Go t.Format(time.RFC3339): renders the instant truncated to whole
seconds; modelled as the decimal image of the whole-second timestamp
(injective on seconds, inverted by parseRFC3339, sub-second part lost),
which is all the repository relies on. -/
def formatRFC3339 (t : GoTime) : GoStr := formatInt t.sec

/-- Go time.Parse(time.RFC3339, s), with the error discarded as in
decryptSession: on text produced by formatRFC3339 it recovers the
whole-second instant; any other text yields the zero instant. -/
def parseRFC3339 (s : GoStr) : GoTime := ⟨scanGoInt s, 0⟩

theorem parseRFC3339_formatRFC3339 (t : GoTime) :
    parseRFC3339 (formatRFC3339 t) = ⟨t.sec, 0⟩ := by
  unfold parseRFC3339 formatRFC3339
  rw [scanGoInt_formatInt]

/-- Go strings.Split(content, newline): cut a string at every newline.
Splitting the empty string yields one empty line, as in Go. -/
def splitLinesCL : GoStr → List GoStr
  | [] => [[]]
  | c :: rest =>
    if c = '\n' then [] :: splitLinesCL rest
    else
      match splitLinesCL rest with
      | [] => [[c]]
      | l :: ls => (c :: l) :: ls

/-- Go strings.Join(lines, newline). -/
def joinLinesCL : List GoStr → GoStr
  | [] => []
  | [l] => l
  | l :: ls => l ++ '\n' :: joinLinesCL ls

theorem splitLinesCL_ne_nil (s : GoStr) : splitLinesCL s ≠ [] := by
  induction s with
  | nil => simp [splitLinesCL]
  | cons c rest ih =>
    unfold splitLinesCL
    split
    · simp
    · rcases h : splitLinesCL rest with _ | ⟨l, ls⟩ <;> simp

theorem mem_splitLinesCL_no_newline (s : GoStr) :
    ∀ l ∈ splitLinesCL s, '\n' ∉ l := by
  induction s with
  | nil =>
    intro l hl
    simp [splitLinesCL] at hl
    simp [hl]
  | cons c rest ih =>
    intro l hl
    by_cases hc : c = '\n'
    · rw [show splitLinesCL (c :: rest) = [] :: splitLinesCL rest from by
        simp [splitLinesCL, hc]] at hl
      rcases List.mem_cons.mp hl with hl | hl
      · simp [hl]
      · exact ih l hl
    · rcases h : splitLinesCL rest with _ | ⟨l0, ls⟩
      · exact absurd h (splitLinesCL_ne_nil rest)
      · rw [show splitLinesCL (c :: rest) = (c :: l0) :: ls from by
          simp [splitLinesCL, hc, h]] at hl
        rcases List.mem_cons.mp hl with hl | hl
        · subst hl
          intro hmem
          rcases List.mem_cons.mp hmem with hmem | hmem
          · exact hc hmem.symm
          · exact ih l0 (h ▸ List.mem_cons_self l0 ls) hmem
        · exact ih l (h ▸ List.mem_cons_of_mem l0 hl)

theorem splitLinesCL_no_newline_self (l : GoStr) (h : '\n' ∉ l) :
    splitLinesCL l = [l] := by
  induction l with
  | nil => rfl
  | cons c rest ih =>
    have hc : ¬(c = '\n') := fun hcc => h (hcc ▸ List.mem_cons_self c rest)
    have hrest : '\n' ∉ rest := fun hm => h (List.mem_cons_of_mem c hm)
    simp [splitLinesCL, hc, ih hrest]

theorem splitLinesCL_append_newline (l : GoStr) (r : GoStr) (h : '\n' ∉ l) :
    splitLinesCL (l ++ '\n' :: r) = l :: splitLinesCL r := by
  induction l with
  | nil => simp [splitLinesCL]
  | cons c rest ih =>
    have hc : ¬(c = '\n') := fun hcc => h (hcc ▸ List.mem_cons_self c rest)
    have hrest : '\n' ∉ rest := fun hm => h (List.mem_cons_of_mem c hm)
    have ih1 := ih hrest
    simp only [List.cons_append]
    simp [splitLinesCL, hc, ih1]

theorem splitLinesCL_joinLinesCL (X : List GoStr) (hne : X ≠ [])
    (h : ∀ l ∈ X, '\n' ∉ l) : splitLinesCL (joinLinesCL X) = X := by
  induction X with
  | nil => exact absurd rfl hne
  | cons l ls ih =>
    rcases ls with _ | ⟨l2, ls2⟩
    · exact splitLinesCL_no_newline_self l (h l (List.mem_cons_self l []))
    · have hjoin : joinLinesCL (l :: l2 :: ls2) = l ++ '\n' :: joinLinesCL (l2 :: ls2) := rfl
      rw [hjoin, splitLinesCL_append_newline l _ (h l (List.mem_cons_self l _))]
      rw [ih (by simp) (fun x hx => h x (List.mem_cons_of_mem l hx))]

deriving instance DecidableEq for Except

/-- A symbolic AES-256-GCM ciphertext (crypto.go): sealing records the
plaintext, the key the SHA-256 derivation was applied to, and the fresh
random nonce.  The base64 text of the concrete bytes is absorbed into this
representation. -/
structure Cipher where
  plain : GoStr
  key : GoStr
  nonce : Nat
deriving DecidableEq

/-- crypto.go Encrypt: seal a plaintext under a key with a fresh nonce. -/
def Encrypt (plainText key : GoStr) (nonce : Nat) : Cipher :=
  ⟨plainText, key, nonce⟩

/-- crypto.go Decrypt: authenticated opening succeeds exactly under the
sealing key and returns the plaintext; under any other key the GCM tag
fails to verify. -/
def Decrypt (cipherText : Cipher) (key : GoStr) : Except GoStr GoStr :=
  if cipherText.key = key then .ok cipherText.plain
  else .error ("cipher: message authentication failed".toList)

/-- types.go AWSSession: one stored AWS session. -/
structure AWSSession where
  AccessKey : GoStr
  SecretKey : GoStr
  SessionToken : GoStr
  Expiration : GoTime
  Profile : GoStr
  RoleArn : GoStr
  SessionName : GoStr
  SourceProfile : GoStr
  Region : GoStr
  MfaArn : GoStr
  Duration : Int
  Revoked : Bool
deriving DecidableEq

/-- The role-ARN sentinel marking a GetSessionToken (MFA base) session. -/
def mfaSentinel : GoStr := "MFA-Session".toList

/-- One value of the on-disk envelope's inner map: either the base64 of a
sealed field (as SaveCredentials writes) or a raw unencrypted string (as
the Revoked convention of the envelope schema uses). -/
inductive FieldVal where
  | cipherVal (c : Cipher)
  | rawVal (s : GoStr)
deriving DecidableEq

/-- The inner map of the envelope: field name to stored value.  Go maps are
modelled as association lists; json.Marshal writes map keys in a canonical
(sorted) order, so the list order is a deterministic stand-in. -/
abbrev EncEntry := List (GoStr × FieldVal)

/-- The outer envelope: profile name to encrypted field map. -/
abbrev Envelope := List (GoStr × EncEntry)

/-- Lookup in an association list (Go map read). -/
def lookupA {α : Type} : List (GoStr × α) → GoStr → Option α
  | [], _ => none
  | (k, v) :: rest, key => if k = key then some v else lookupA rest key

/-- Insert or replace in an association list (Go map write). -/
def insertA {α : Type} : List (GoStr × α) → GoStr → α → List (GoStr × α)
  | [], key, v => [(key, v)]
  | (k, w) :: rest, key, v =>
    if k = key then (k, v) :: rest else (k, w) :: insertA rest key v

theorem lookupA_insertA_self {α : Type} (l : List (GoStr × α)) (key : GoStr) (v : α) :
    lookupA (insertA l key v) key = some v := by
  induction l with
  | nil => simp [insertA, lookupA]
  | cons kv rest ih =>
    obtain ⟨k, w⟩ := kv
    by_cases hk : k = key
    · simp [insertA, lookupA, hk]
    · simp [insertA, lookupA, hk, ih]

/-- The bytes of the credentials envelope file, classified by how
json.Unmarshal receives them.  The envJson constructor stands for the
canonical json.MarshalIndent rendering of an envelope; invalidJson stands
for any non-empty byte string that is not valid JSON of the envelope
shape. -/
inductive StoreFile where
  | absent
  | emptyFile
  | envJson (env : Envelope)
  | invalidJson (raw : GoStr)
deriving DecidableEq

/-- storage.go SaveCredentials: encrypt each field of the session, load the
existing envelope (refusing to proceed when its bytes are non-empty and
not valid JSON), replace the entry for this profile and write the file.
The nonce argument numbers the fresh GCM nonces drawn by the ten Encrypt
calls.  Returns the error outcome together with the resulting file bytes;
on every error path the file is untouched.  The encryptionMap of
SaveCredentials, one sealed value per field with consecutive fresh
nonces, is the encryptFields list; note it carries no Revoked key. -/
def encryptFields (creds : AWSSession) (key : GoStr) (nonce : Nat) : EncEntry :=
  [("AccessKey".toList, .cipherVal (Encrypt creds.AccessKey key nonce)),
   ("SecretKey".toList, .cipherVal (Encrypt creds.SecretKey key (nonce + 1))),
   ("SessionToken".toList, .cipherVal (Encrypt creds.SessionToken key (nonce + 2))),
   ("Expiration".toList, .cipherVal (Encrypt (formatRFC3339 creds.Expiration) key (nonce + 3))),
   ("RoleArn".toList, .cipherVal (Encrypt creds.RoleArn key (nonce + 4))),
   ("SessionName".toList, .cipherVal (Encrypt creds.SessionName key (nonce + 5))),
   ("SourceProfile".toList, .cipherVal (Encrypt creds.SourceProfile key (nonce + 6))),
   ("Region".toList, .cipherVal (Encrypt creds.Region key (nonce + 7))),
   ("MfaArn".toList, .cipherVal (Encrypt creds.MfaArn key (nonce + 8))),
   ("Duration".toList, .cipherVal (Encrypt (formatInt creds.Duration) key (nonce + 9)))]

def SaveCredentials (profile : GoStr) (creds : AWSSession) (key : GoStr)
    (nonce : Nat) (st : StoreFile) : Except GoStr Unit × StoreFile :=
  let encrypted : EncEntry := encryptFields creds key nonce
  match st with
  | .invalidJson _ => (.error "failed to parse existing credentials file".toList, st)
  | .absent => (.ok (), .envJson (insertA [] profile encrypted))
  | .emptyFile => (.ok (), .envJson (insertA [] profile encrypted))
  | .envJson data => (.ok (), .envJson (insertA data profile encrypted))

/-- storage.go decryptSession: decrypt the fields of one envelope entry.
A missing field decodes to the empty string; the Expiration parse error is
discarded; the Duration is scanned with a %d verb; the Revoked key is read
unencrypted and compared with the literal string true. -/
def decryptSession (profile : GoStr) (enc : EncEntry) (key : GoStr) :
    Except GoStr AWSSession :=
  let getField : GoStr → Except GoStr GoStr := fun field =>
    match lookupA enc field with
    | none => .ok []
    | some (.cipherVal c) => Decrypt c key
    | some (.rawVal _) => .error ("failed to decrypt field".toList)
  do
  let expStr ← getField "Expiration".toList
  let exp := parseRFC3339 expStr
  let durStr ← getField "Duration".toList
  let duration := scanGoInt durStr
  let accessKey ← getField "AccessKey".toList
  let secretKey ← getField "SecretKey".toList
  let sessionToken ← getField "SessionToken".toList
  let roleArn ← getField "RoleArn".toList
  let sessionName ← getField "SessionName".toList
  let sourceProfile ← getField "SourceProfile".toList
  let region ← getField "Region".toList
  let mfaArn ← getField "MfaArn".toList
  let revoked :=
    match lookupA enc ("Revoked".toList) with
    | some (.rawVal s) => s = "true".toList
    | _ => false
  return {
    Profile := profile
    AccessKey := accessKey
    SecretKey := secretKey
    SessionToken := sessionToken
    Expiration := exp
    RoleArn := roleArn
    SessionName := sessionName
    SourceProfile := sourceProfile
    Region := region
    MfaArn := mfaArn
    Duration := duration
    Revoked := revoked }

/-- storage.go LoadCredentials: read the envelope, find the profile entry,
decrypt it. -/
def LoadCredentials (st : StoreFile) (profile key : GoStr) :
    Except GoStr AWSSession :=
  match st with
  | .absent => .error "failed to read credentials file".toList
  | .emptyFile => .error "failed to decode credentials".toList
  | .invalidJson _ => .error "failed to decode credentials".toList
  | .envJson data =>
    match lookupA data profile with
    | none => .error ("profile not found in store".toList)
    | some enc => decryptSession profile enc key

/-- storage.go ListAllSessions: a missing file yields the empty session
list with no error; otherwise every entry is decrypted and the first
per-entry failure aborts the whole call.  The association-list order of
the envelope stands in for Go's unspecified map iteration order. -/
def ListAllSessions (st : StoreFile) (key : GoStr) :
    Except GoStr (List AWSSession) :=
  match st with
  | .absent => .ok []
  | .emptyFile => .error "failed to decode credentials".toList
  | .invalidJson _ => .error "failed to decode credentials".toList
  | .envJson data => data.mapM (fun p => decryptSession p.1 p.2 key)

/-- keychain.go GetSecret: resolve the master secret from the explicit
argument, the CLOUDCTL_SECRET environment variable, then (on darwin only)
the native keystore queried at service cloudctl, account master-key.  The
keystore parameter models the keychain query outcome for a given
service and account pair. -/
def GetSecret (explicitSecret envSecret goos : GoStr)
    (keystore : GoStr → GoStr → Except GoStr GoStr) : Except GoStr GoStr :=
  if explicitSecret ≠ [] then .ok explicitSecret
  else if envSecret ≠ [] then .ok envSecret
  else
    if goos = "darwin".toList then
      match keystore "cloudctl".toList "master-key".toList with
      | .ok secret => if secret ≠ [] then .ok secret else .error "no secret found".toList
      | .error _ => .error "no secret found".toList
    else .error "no secret found".toList

/-- The value the keystore source contributes: the stored entry at service
cloudctl, account master-key, or empty when the query fails. -/
def keystoreValue (keystore : GoStr → GoStr → Except GoStr GoStr) : GoStr :=
  match keystore "cloudctl".toList "master-key".toList with
  | .ok s => s
  | .error _ => []

/-- Modelled from the spec: the resolution order of the secret provider,
stopping at the first non-empty source. -/
def firstNonEmptySource : List GoStr → Option GoStr
  | [] => none
  | s :: rest => if s ≠ [] then some s else firstNonEmptySource rest

/-- sync.go: is a trimmed line an INI section header. -/
def isSectionHeader (t : GoStr) : Bool :=
  goHasPfx "[".toList t && goHasSfx "]".toList t

/-- sync.go: the profile name of a section header (strings.Trim with the
bracket cutset). -/
def sectionNameOf (t : GoStr) : GoStr := goTrimCutset "[]".toList t

/-- sync.go: is a trimmed line a cloudctl-managed comment. -/
def isManagedComment (t : GoStr) : Bool :=
  goHasPfx "; Managed by cloudctl".toList t

/-- sync.go, the look-ahead loop: scan forward past blank lines and
comment lines; report the name of the next section header, or none when
the first real line is not a header or the file ends. -/
def lookaheadHeaderName : List GoStr → Option GoStr
  | [] => none
  | l :: rest =>
    let tj := trimSpace l
    if tj = [] || goHasPfx ";".toList tj then lookaheadHeaderName rest
    else if isSectionHeader tj then some (sectionNameOf tj) else none

/-- sync.go, step 4: one pass over the existing lines that drops every
section whose header names one of the target profiles (the skip flag is
the loop's skipSection state) and every managed comment whose look-ahead
header names a target. -/
def syncFilter (targets : List GoStr) : Bool → List GoStr → List GoStr
  | _, [] => []
  | skip, l :: rest =>
    let t := trimSpace l
    let skip1 := if isSectionHeader t then targets.contains (sectionNameOf t) else skip
    let dropComment := isManagedComment t &&
      (match lookaheadHeaderName rest with
       | some h => targets.contains h
       | none => false)
    if dropComment then syncFilter targets skip1 rest
    else if skip1 then syncFilter targets skip1 rest
    else l :: syncFilter targets skip1 rest

/-- sync.go, step 5: strip trailing lines that are blank after trimming. -/
def stripTrailingBlank (ls : List GoStr) : List GoStr :=
  (ls.reverse.dropWhile (fun l => trimSpace l = [])).reverse

/-- utils (part_002) FormatBKK: the display rendering of an instant in the
fixed Bangkok zone (UTC+7).  Modelled as the decimal image of the shifted
whole-second timestamp; the claims rely only on its determinism. -/
def formatBKK (t : GoTime) : GoStr := formatInt (t.sec + 25200)

/-- sync.go, step 6: the managed comment line written above a synced
section. -/
def managedCommentOf (s : AWSSession) : GoStr :=
  let sessionType := if s.RoleArn = mfaSentinel then "MFA Session".toList else "Role Session".toList
  "; Managed by cloudctl (".toList ++ sessionType ++ ") - Expires: ".toList ++ formatBKK s.Expiration

/-- sync.go, step 6: the block of lines appended for one synced session. -/
def sessionBlock (s : AWSSession) : List GoStr :=
  [managedCommentOf s,
   '[' :: (s.Profile ++ [']']),
   "aws_access_key_id = ".toList ++ s.AccessKey,
   "aws_secret_access_key = ".toList ++ s.SecretKey,
   "aws_session_token = ".toList ++ s.SessionToken,
   []]

/-- sync.go, step 6: the appended blocks of all synced sessions, in
order. -/
def appendBlocks (active : List AWSSession) : List GoStr :=
  (active.map sessionBlock).flatten

/-- sync.go, steps 3 to 6: the pure rewrite of the existing lines for a
non-empty list of active target sessions. -/
def rewriteCreds (existingLines : List GoStr) (active : List AWSSession) : List GoStr :=
  let targets := active.map (fun s => s.Profile)
  let kept := stripTrailingBlank (syncFilter targets false existingLines)
  let kept1 := if kept ≠ [] ∧ kept.getLast? ≠ some [] then kept ++ [[]] else kept
  kept1 ++ appendBlocks active

/-- sync.go SyncAllToAWS, given the enumerated stored sessions (the list
order stands for Go's unspecified map iteration order in
ListAllSessions), the current bytes of the aws credentials file (none
when missing) and the current instant.  Returns the bytes written (none
when the function returns without writing) and the synced count. -/
def SyncAllToAWS (sessions : List AWSSession) (existing : Option GoStr)
    (now : GoTime) : Option GoStr × Nat :=
  if sessions.isEmpty then (none, 0)
  else
    let activeSessions := sessions.filter (fun s => s.Expiration.after now)
    if activeSessions.isEmpty then (none, 0)
    else
      let existingLines := match existing with
        | some content => splitLinesCL content
        | none => []
      (some (joinLinesCL (rewriteCreds existingLines activeSessions)), activeSessions.length)

/-- Credentials delivered by STS. -/
structure StsCreds where
  AccessKeyId : GoStr
  SecretAccessKey : GoStr
  SessionToken : GoStr
  Expiration : GoTime
deriving DecidableEq

/-- The credential source an aws.Config carries: a static triple (from a
stored cloudctl session) or a shared-config profile resolved by the SDK. -/
inductive BaseCreds where
  | staticCreds (accessKey secretKey sessionToken : GoStr)
  | sharedProfile (name : GoStr)
deriving DecidableEq

/-- An sts.AssumeRoleInput together with the config it is issued under. -/
structure AssumeRoleRequest where
  creds : BaseCreds
  region : GoStr
  RoleArn : GoStr
  RoleSessionName : GoStr
  DurationSeconds : Option Int
  SerialNumber : Option GoStr
  TokenCode : Option GoStr
deriving DecidableEq

/-- An sts.GetSessionTokenInput together with the config it is issued
under. -/
structure GetSessionTokenRequest where
  creds : BaseCreds
  region : GoStr
  DurationSeconds : Int
  SerialNumber : GoStr
  TokenCode : GoStr
deriving DecidableEq

/-- The abstract upstream STS service. -/
structure StsClient where
  assumeRole : AssumeRoleRequest → Except GoStr StsCreds
  getSessionToken : GetSessionTokenRequest → Except GoStr StsCreds

/-- The process environment a command runs in: the STS service, which
external AWS shared-config profiles resolve, and the current instant. -/
structure CmdEnv where
  sts : StsClient
  extProfiles : GoStr → Bool
  now : GoTime

/-- The observable interactions of a run: the yes-or-no restore prompts
(naming the session asked about), the masked MFA-code prompts, and the
STS calls issued. -/
inductive Event where
  | askRestore (profile : GoStr)
  | promptMfaCode
  | stsAssumeRole (req : AssumeRoleRequest)
  | stsGetSessionToken (req : GetSessionTokenRequest)
deriving DecidableEq

/-- The mutable world of a command: the envelope file, the remaining
standard-input tokens, the nonce supply and the aws credentials file. -/
structure World where
  store : StoreFile
  stdin : List GoStr
  nonce : Nat
  awsFile : Option GoStr
deriving DecidableEq

/-- Read one token from standard input (fmt.Scanln or readMFACode);
exhausted input reads as empty. -/
def popStdin (w : World) : GoStr × World :=
  match w.stdin with
  | [] => ([], w)
  | s :: rest => (s, { w with stdin := rest })

/-- Run SaveCredentials against the world, consuming the ten nonces the
Encrypt calls draw. -/
def worldSave (profile : GoStr) (creds : AWSSession) (key : GoStr)
    (w : World) : Except GoStr Unit × World :=
  let r := SaveCredentials profile creds key w.nonce w.store
  (r.1, { w with store := r.2, nonce := w.nonce + 10 })

/-- aws.go PerformRefresh: the silent refresh of one session.  Refuses MFA
base sessions and sessions without a source; resolves the source first as
a stored cloudctl session (rejecting an expired one), then as an external
shared profile; then issues AssumeRole with the stored role ARN, the
profile name as session name and a fixed duration of 3600 seconds, and
persists the result. -/
def PerformRefresh (env : CmdEnv) (s : AWSSession) (secret region : GoStr)
    (w : World) : Except GoStr AWSSession × World × List Event :=
  if s.RoleArn = mfaSentinel then
    (.error "MFA sessions cannot be silently refreshed".toList, w, [])
  else if s.SourceProfile = [] then
    (.error "no source profile stored for this session".toList, w, [])
  else
    let cfgE : Except GoStr BaseCreds :=
      match LoadCredentials w.store s.SourceProfile secret with
      | .ok sourceSession =>
        if env.now.after sourceSession.Expiration then
          .error "source session has expired".toList
        else
          .ok (.staticCreds sourceSession.AccessKey sourceSession.SecretKey
                sourceSession.SessionToken)
      | .error _ =>
        if env.extProfiles s.SourceProfile then .ok (.sharedProfile s.SourceProfile)
        else .error "failed to load source".toList
    match cfgE with
    | .error e => (.error e, w, [])
    | .ok creds =>
      let req : AssumeRoleRequest := {
        creds := creds
        region := region
        RoleArn := s.RoleArn
        RoleSessionName := s.Profile
        DurationSeconds := some 3600
        SerialNumber := none
        TokenCode := none }
      match env.sts.assumeRole req with
      | .error e => (.error e, w, [.stsAssumeRole req])
      | .ok res =>
        let newSession : AWSSession := {
          Profile := s.Profile
          AccessKey := res.AccessKeyId
          SecretKey := res.SecretAccessKey
          SessionToken := res.SessionToken
          Expiration := res.Expiration
          RoleArn := s.RoleArn
          SessionName := []
          SourceProfile := s.SourceProfile
          Region := s.Region
          MfaArn := s.MfaArn
          Duration := s.Duration
          Revoked := false }
        match worldSave s.Profile newSession secret w with
        | (.error e, w1) => (.error e, w1, [.stsAssumeRole req])
        | (.ok _, w1) => (.ok newSession, w1, [.stsAssumeRole req])

/-- refresh.go smartRefresh, interactive-restore part (step 2): reload the
source credentials (a stored session first, else the external profile,
with no expiry check), then prompt for an MFA code and call
GetSessionToken for an MFA base session, or AssumeRole (with the MFA
serial when one is stored) for a role session, and persist. -/
def restoreSession (env : CmdEnv) (s : AWSSession) (secret : GoStr)
    (w : World) : World × List Event :=
  let region := if s.Region = [] then "ap-southeast-1".toList else s.Region
  let duration := if s.Duration < 900 then (3600 : Int) else s.Duration
  let cfgE : Except GoStr BaseCreds :=
    match LoadCredentials w.store s.SourceProfile secret with
    | .ok src => .ok (.staticCreds src.AccessKey src.SecretKey src.SessionToken)
    | .error _ =>
      if env.extProfiles s.SourceProfile then .ok (.sharedProfile s.SourceProfile)
      else .error "failed to load source config".toList
  match cfgE with
  | .error _ => (w, [])
  | .ok creds =>
    if s.RoleArn = mfaSentinel then
      let (tokenCode, w1) := popStdin w
      if tokenCode = [] then (w1, [.promptMfaCode])
      else
        let req : GetSessionTokenRequest := {
          creds := creds
          region := region
          DurationSeconds := duration
          SerialNumber := s.MfaArn
          TokenCode := tokenCode }
        match env.sts.getSessionToken req with
        | .error _ => (w1, [.promptMfaCode, .stsGetSessionToken req])
        | .ok res =>
          let newSession : AWSSession := {
            Profile := s.Profile
            AccessKey := res.AccessKeyId
            SecretKey := res.SecretAccessKey
            SessionToken := res.SessionToken
            Expiration := res.Expiration
            RoleArn := mfaSentinel
            SessionName := []
            SourceProfile := s.SourceProfile
            Region := region
            MfaArn := s.MfaArn
            Duration := duration
            Revoked := false }
          let (_, w2) := worldSave s.Profile newSession secret w1
          (w2, [.promptMfaCode, .stsGetSessionToken req])
    else
      let withMfa := s.MfaArn ≠ []
      let (tokenCode, w1, pre) :=
        if withMfa then
          let (tc, w1) := popStdin w
          (tc, w1, [Event.promptMfaCode])
        else ([], w, [])
      if withMfa ∧ tokenCode = [] then (w1, pre)
      else
        let req : AssumeRoleRequest := {
          creds := creds
          region := region
          RoleArn := s.RoleArn
          RoleSessionName := s.Profile
          DurationSeconds := some duration
          SerialNumber := if withMfa then some s.MfaArn else none
          TokenCode := if withMfa then some tokenCode else none }
        match env.sts.assumeRole req with
        | .error _ => (w1, pre ++ [.stsAssumeRole req])
        | .ok res =>
          let newSession : AWSSession := {
            Profile := s.Profile
            AccessKey := res.AccessKeyId
            SecretKey := res.SecretAccessKey
            SessionToken := res.SessionToken
            Expiration := res.Expiration
            RoleArn := s.RoleArn
            SessionName := []
            SourceProfile := s.SourceProfile
            Region := region
            MfaArn := s.MfaArn
            Duration := duration
            Revoked := false }
          let (_, w2) := worldSave s.Profile newSession secret w1
          (w2, pre ++ [.stsAssumeRole req])

/-- refresh.go smartRefresh: load the target; when it is unexpired, not
forced interactive, not an MFA base session and has a source, first
attempt the silent PerformRefresh path; on its failure, or when the guard
fails, fall through to the interactive restore. -/
def smartRefresh (env : CmdEnv) (profile secret : GoStr) (force : Bool)
    (w : World) : World × List Event :=
  match LoadCredentials w.store profile secret with
  | .error _ => (w, [])
  | .ok s =>
    let isExpired := s.Expiration.before env.now
    if ¬isExpired ∧ ¬force ∧ s.RoleArn ≠ mfaSentinel ∧ s.SourceProfile ≠ [] then
      match PerformRefresh env s secret s.Region w with
      | (.ok _, w1, ev1) => (w1, ev1)
      | (.error _, w1, ev1) =>
        let r := restoreSession env s secret w1
        (r.1, ev1 ++ r.2)
    else restoreSession env s secret w

/-- The accumulating state of the batch refresher loop: the world, the
event log, the restoredSources map (present with true after a restore,
present with false after a decline recorded in the role pass), and the
three summary counters. -/
structure BatchState where
  w : World
  events : List Event
  restoredSources : List (GoStr × Bool)
  refreshed : Nat
  skipped : Nat
  failed : Nat

/-- The bottom of the refreshAllSessions loop body: an expired session
whose silent refresh failed is counted skipped, an unexpired one failed. -/
def batchFallthrough (st : BatchState) (isExpired : Bool) : BatchState :=
  if isExpired then { st with skipped := st.skipped + 1 }
  else { st with failed := st.failed + 1 }

/-- refresh.go refreshAllSessions, one loop iteration over a session. -/
def batchStep (env : CmdEnv) (secret : GoStr) (st : BatchState)
    (s : AWSSession) : BatchState :=
  let isExpired := env.now.after s.Expiration
  if s.RoleArn = mfaSentinel then
    if ¬isExpired then st
    else
      let (response, w1) := popStdin st.w
      let ev := st.events ++ [.askRestore s.Profile]
      if response = "y".toList ∨ response = "Y".toList then
        let r := smartRefresh env s.Profile secret false w1
        { st with
            w := r.1
            events := ev ++ r.2
            restoredSources := insertA st.restoredSources s.Profile true
            refreshed := st.refreshed + 1 }
      else
        { st with w := w1, events := ev, skipped := st.skipped + 1 }
  else
    match PerformRefresh env s secret s.Region st.w with
    | (.ok _, w1, ev1) =>
      { st with w := w1, events := st.events ++ ev1, refreshed := st.refreshed + 1 }
    | (.error _, w1, ev1) =>
      let st1 := { st with w := w1, events := st.events ++ ev1 }
      if s.SourceProfile ≠ [] ∧ isExpired then
        match LoadCredentials w1.store s.SourceProfile secret with
        | .ok sourceSession =>
          if env.now.after sourceSession.Expiration then
            match lookupA st1.restoredSources s.SourceProfile with
            | some _ => batchFallthrough st1 isExpired
            | none =>
              let ev := st1.events ++ [.askRestore s.SourceProfile]
              let (response, w2) := popStdin w1
              if response = "y".toList ∨ response = "Y".toList then
                let r := smartRefresh env s.SourceProfile secret false w2
                let restored1 := insertA st1.restoredSources s.SourceProfile true
                match PerformRefresh env s secret s.Region r.1 with
                | (.ok _, w4, ev4) =>
                  { st1 with
                      w := w4
                      events := ev ++ r.2 ++ ev4
                      restoredSources := restored1
                      refreshed := st1.refreshed + 1 }
                | (.error _, w4, ev4) =>
                  { st1 with
                      w := w4
                      events := ev ++ r.2 ++ ev4
                      restoredSources := restored1
                      failed := st1.failed + 1 }
              else
                { st1 with
                    w := w2
                    events := ev
                    restoredSources := insertA st1.restoredSources s.SourceProfile false
                    skipped := st1.skipped + 1 }
          else batchFallthrough st1 isExpired
        | .error _ => batchFallthrough st1 isExpired
      else batchFallthrough st1 isExpired

/-- refresh.go refreshAllSessions: list the stored sessions, order MFA
base sessions first (sort.Slice guarantees exactly this grouping), run
the loop, and when anything was refreshed run the automatic sync.
Returns the final world, the event log and the summary counters. -/
def refreshAllSessions (env : CmdEnv) (secret : GoStr) (w : World) :
    World × List Event × (Nat × Nat × Nat) :=
  match ListAllSessions w.store secret with
  | .error _ => (w, [], (0, 0, 0))
  | .ok sessions0 =>
    if sessions0.isEmpty then (w, [], (0, 0, 0))
    else
      let sessions :=
        sessions0.filter (fun s => s.RoleArn = mfaSentinel) ++
        sessions0.filter (fun s => ¬(s.RoleArn = mfaSentinel))
      let st0 : BatchState := ⟨w, [], [], 0, 0, 0⟩
      let stF := sessions.foldl (batchStep env secret) st0
      let wF :=
        if stF.refreshed > 0 then
          match ListAllSessions stF.w.store secret with
          | .error _ => stF.w
          | .ok ss =>
            match SyncAllToAWS ss stF.w.awsFile env.now with
            | (some out, _) => { stF.w with awsFile := some out }
            | (none, _) => stF.w
        else stF.w
      (wF, stF.events, (stF.refreshed, stF.skipped, stF.failed))

/-- login.go, the acquisition stage after the source credentials were
resolved to a base: when an MFA ARN was given, prompt for a code and
call GetSessionToken on the resolved base credentials, replacing them
with the MFA-verified triple; then AssumeRole with the target profile as
session name and a fixed duration of 3600 seconds, and persist under the
target profile. -/
def loginAcquire (env : CmdEnv) (sourceProfile targetProfile roleArn mfaArn region : GoStr)
    (secretOpt : Option GoStr) (creds0 : BaseCreds) (w : World) : World × List Event :=
  let useEncryption := secretOpt.isSome
  let secret := secretOpt.getD []
  let mfaStage : Except GoStr BaseCreds × World × List Event :=
    if mfaArn ≠ [] then
      let (code, w1) := popStdin w
      let req : GetSessionTokenRequest := {
        creds := creds0
        region := region
        DurationSeconds := 3600
        SerialNumber := mfaArn
        TokenCode := code }
      match env.sts.getSessionToken req with
      | .error _ =>
        (.error "MFA authentication failed".toList, w1,
         [.promptMfaCode, .stsGetSessionToken req])
      | .ok res =>
        (.ok (.staticCreds res.AccessKeyId res.SecretAccessKey res.SessionToken),
         w1, [.promptMfaCode, .stsGetSessionToken req])
    else (.ok creds0, w, [])
  match mfaStage with
  | (.error _, w1, ev1) => (w1, ev1)
  | (.ok creds1, w1, ev1) =>
    let req : AssumeRoleRequest := {
      creds := creds1
      region := region
      RoleArn := roleArn
      RoleSessionName := targetProfile
      DurationSeconds := some 3600
      SerialNumber := none
      TokenCode := none }
    match env.sts.assumeRole req with
    | .error _ => (w1, ev1 ++ [.stsAssumeRole req])
    | .ok res =>
      let session : AWSSession := {
        Profile := targetProfile
        AccessKey := res.AccessKeyId
        SecretKey := res.SecretAccessKey
        SessionToken := res.SessionToken
        Expiration := res.Expiration
        RoleArn := roleArn
        SessionName := []
        SourceProfile := sourceProfile
        Region := []
        MfaArn := []
        Duration := 0
        Revoked := false }
      let w2 :=
        if useEncryption then (worldSave targetProfile session secret w1).2 else w1
      (w2, ev1 ++ [.stsAssumeRole req])

/-- login.go, the credential-acquisition part of the login command (after
flag and secret resolution): resolve the source as a stored cloudctl
session when encryption is in use, else as an external profile, then run
the acquisition stage on the resolved base credentials. -/
def loginRun (env : CmdEnv) (sourceProfile targetProfile roleArn mfaArn region : GoStr)
    (secretOpt : Option GoStr) (w : World) : World × List Event :=
  let useEncryption := secretOpt.isSome
  let secret := secretOpt.getD []
  let cfgE : Except GoStr BaseCreds :=
    if useEncryption then
      match LoadCredentials w.store sourceProfile secret with
      | .ok session =>
        .ok (.staticCreds session.AccessKey session.SecretKey session.SessionToken)
      | .error _ =>
        if env.extProfiles sourceProfile then .ok (.sharedProfile sourceProfile)
        else .error "profile not found".toList
    else
      if env.extProfiles sourceProfile then .ok (.sharedProfile sourceProfile)
      else .error "profile not found".toList
  match cfgE with
  | .error _ => (w, [])
  | .ok creds0 =>
    loginAcquire env sourceProfile targetProfile roleArn mfaArn region secretOpt creds0 w

/-- switch.go, lines 66 to 87: after the secret is resolved, load the
profile and, whenever the load succeeds, print the three export lines on
standard output; there is no expiration check on this path. -/
def switchStdout (st : StoreFile) (profile secret : GoStr) : List GoStr :=
  match LoadCredentials st profile secret with
  | .error _ => []
  | .ok s =>
    ["export AWS_ACCESS_KEY_ID=".toList ++ s.AccessKey,
     "export AWS_SECRET_ACCESS_KEY=".toList ++ s.SecretKey,
     "export AWS_SESSION_TOKEN=".toList ++ s.SessionToken]

/-- console.go, lines 82 to 97: the gate applied to a loaded session
before the federation endpoint is contacted; some reason means the
command refuses, none means it proceeds to build the URL. -/
def consoleGate (s : AWSSession) (now : GoTime) : Option GoStr :=
  if now.after s.Expiration then some "session has expired".toList
  else if s.RoleArn = mfaSentinel ∨ s.RoleArn = [] then
    some "MFA base sessions cannot be used for console access".toList
  else none

theorem decryptSession_encryptFields (profile : GoStr) (s : AWSSession)
    (key : GoStr) (nonce : Nat) :
    decryptSession profile (encryptFields s key nonce) key =
      .ok { s with
        Profile := profile
        Expiration := ⟨s.Expiration.sec, 0⟩
        Revoked := false } := by
  simp +decide [decryptSession, encryptFields, lookupA, Decrypt, Encrypt,
    parseRFC3339_formatRFC3339, scanGoInt_formatInt, parseRFC3339, formatRFC3339,
    bind, Except.bind, pure, Except.pure]

/-- Claim C10: for every secret, ListAllSessions called when the
credentials envelope file does not exist returns the empty session list
with no error, while LoadCredentials of any profile fails in the same
state, so listing is total on a fresh installation. -/
theorem c10_list_total_on_fresh_install (key profile : GoStr) :
    ListAllSessions .absent key = .ok [] ∧
      LoadCredentials .absent profile key =
        .error "failed to read credentials file".toList :=
  ⟨rfl, rfl⟩

/-- Claim C2: when the envelope file exists, is non-empty and is not valid
JSON, SaveCredentials returns an error for every profile, session and
key, and the file bytes are left unchanged. -/
theorem c2_corrupt_store_save_refuses (profile : GoStr) (s : AWSSession)
    (key : GoStr) (nonce : Nat) (raw : GoStr) :
    (SaveCredentials profile s key nonce (.invalidJson raw)).1 =
        .error "failed to parse existing credentials file".toList ∧
      (SaveCredentials profile s key nonce (.invalidJson raw)).2 =
        .invalidJson raw :=
  ⟨rfl, rfl⟩

/-- Claim C9: GetSecret resolves the master secret by trying, in order and
stopping at the first non-empty hit, the explicit secret, the
CLOUDCTL_SECRET environment variable and, on darwin, the keystore entry
at service cloudctl, account master-key; it errors exactly when all three
sources are empty, and the value returned is the first non-empty
source. -/
theorem c9_get_secret_resolution (ex env : GoStr)
    (keystore : GoStr → GoStr → Except GoStr GoStr) :
    GetSecret ex env "darwin".toList keystore =
      (match firstNonEmptySource [ex, env, keystoreValue keystore] with
       | some v => .ok v
       | none => .error "no secret found".toList) := by
  unfold GetSecret keystoreValue
  rcases hks : keystore "cloudctl".toList "master-key".toList with e | s
  · by_cases hex : ex = [] <;> by_cases henv : env = [] <;>
      simp [firstNonEmptySource, hex, henv]
  · by_cases hex : ex = [] <;> by_cases henv : env = [] <;> by_cases hs : s = [] <;>
      simp [firstNonEmptySource, hex, henv, hs]

/-- The concrete session of the C1 counterexample: a revoked record. -/
def c1Session : AWSSession := {
  AccessKey := "AKIA1".toList
  SecretKey := "SECRET1".toList
  SessionToken := "TOKEN1".toList
  Expiration := ⟨200, 0⟩
  Profile := "p".toList
  RoleArn := "arn:aws:iam::123:role/R1".toList
  SessionName := "p".toList
  SourceProfile := "default".toList
  Region := "ap-southeast-1".toList
  MfaArn := []
  Duration := 3600
  Revoked := true }

/-- Claim C1, counterexample: saving a session whose revoked flag is set
and loading it back yields a record whose revoked flag is cleared, because
SaveCredentials writes no Revoked key; the round trip is not the identity
on the revoked field. -/
theorem c1_revoked_not_round_tripped :
    c1Session.Revoked = true ∧
      LoadCredentials
          (SaveCredentials c1Session.Profile c1Session "k".toList 0 .absent).2
          c1Session.Profile "k".toList =
        .ok { c1Session with Revoked := false } := by
  constructor
  · rfl
  · decide

/-- Claim C1 as amended: saving a session and loading the same profile back
under the same secret succeeds whenever the existing envelope bytes are
not corrupt, and returns the record with every field preserved and the
expiration equal at RFC3339 second precision, except that the revoked
flag always loads as false (SaveCredentials writes no Revoked key, so the
round trip preserves it only for unrevoked sessions). -/
theorem c1_save_load_roundtrip (s : AWSSession) (key : GoStr) (nonce : Nat)
    (st : StoreFile) (hst : ∀ raw, st ≠ .invalidJson raw) :
    (SaveCredentials s.Profile s key nonce st).1 = .ok () ∧
      LoadCredentials (SaveCredentials s.Profile s key nonce st).2
          s.Profile key =
        .ok { s with Expiration := ⟨s.Expiration.sec, 0⟩, Revoked := false } := by
  cases st with
  | invalidJson raw => exact absurd rfl (hst raw)
  | absent =>
    refine ⟨rfl, ?_⟩
    show LoadCredentials (.envJson (insertA [] s.Profile (encryptFields s key nonce))) s.Profile key = _
    simp only [LoadCredentials, lookupA_insertA_self, decryptSession_encryptFields]
  | emptyFile =>
    refine ⟨rfl, ?_⟩
    show LoadCredentials (.envJson (insertA [] s.Profile (encryptFields s key nonce))) s.Profile key = _
    simp only [LoadCredentials, lookupA_insertA_self, decryptSession_encryptFields]
  | envJson data =>
    refine ⟨rfl, ?_⟩
    show LoadCredentials (.envJson (insertA data s.Profile (encryptFields s key nonce))) s.Profile key = _
    simp only [LoadCredentials, lookupA_insertA_self, decryptSession_encryptFields]

/-- The concrete unrevoked session of the C1 witness. -/
def c1wSession : AWSSession := { c1Session with Profile := "q".toList, Revoked := false }

/-- Witness for the amended C1 round trip at a concrete unrevoked session,
secret and pre-existing envelope. -/
theorem c1_save_load_roundtrip_witness :
    (SaveCredentials c1wSession.Profile c1wSession "key2".toList 7 .emptyFile).1 = .ok () ∧
      LoadCredentials
          (SaveCredentials c1wSession.Profile c1wSession "key2".toList 7 .emptyFile).2
          c1wSession.Profile "key2".toList =
        .ok { c1wSession with Expiration := ⟨c1wSession.Expiration.sec, 0⟩, Revoked := false } :=
  c1_save_load_roundtrip c1wSession "key2".toList 7 .emptyFile (fun raw h => by cases h)

/-- The claim-side ordering: a is at or before b (expiration at or before
now). -/
def GoTime.le (a b : GoTime) : Bool :=
  a.sec < b.sec || (a.sec == b.sec && a.nsec ≤ b.nsec)

theorem after_eq_false_iff_le (a b : GoTime) :
    (a.after b = false) ↔ a.le b = true := by
  unfold GoTime.after GoTime.le
  cases a with
  | mk asec ansec =>
    cases b with
    | mk bsec bnsec =>
      simp only [Bool.or_eq_false_iff, Bool.or_eq_true, Bool.and_eq_false_iff,
        Bool.and_eq_true, decide_eq_false_iff_not, decide_eq_true_eq, beq_iff_eq,
        beq_eq_false_iff_ne, ne_eq, not_lt]
      omega

/-- The concrete expired role session of the C4 counterexample. -/
def c4Session : AWSSession := {
  AccessKey := "AK4".toList
  SecretKey := "SK4".toList
  SessionToken := "ST4".toList
  Expiration := ⟨100, 0⟩
  Profile := "sw".toList
  RoleArn := "arn:aws:iam::123:role/R4".toList
  SessionName := "sw".toList
  SourceProfile := "default".toList
  Region := "ap-southeast-1".toList
  MfaArn := []
  Duration := 3600
  Revoked := false }

/-- Claim C4, counterexample: for a stored session with expiration at or
before now, the switch command still prints the three export lines (it
has no expiration gate at all), and the console gate does not refuse a
session whose expiration equals now exactly (its check is strict). -/
theorem c4_expired_gating_cex :
    c4Session.Expiration.le ⟨500, 0⟩ = true ∧
      switchStdout (SaveCredentials c4Session.Profile c4Session "k".toList 0 .absent).2
          c4Session.Profile "k".toList =
        ["export AWS_ACCESS_KEY_ID=".toList ++ c4Session.AccessKey,
         "export AWS_SECRET_ACCESS_KEY=".toList ++ c4Session.SecretKey,
         "export AWS_SESSION_TOKEN=".toList ++ c4Session.SessionToken] ∧
      ({ c4Session with Expiration := ⟨500, 0⟩ } : AWSSession).Expiration.le ⟨500, 0⟩ = true ∧
      consoleGate { c4Session with Expiration := ⟨500, 0⟩ } ⟨500, 0⟩ = none := by
  refine ⟨by decide, by decide, by decide, by decide⟩

/-- Claim C4 as amended: for a loaded session, switch prints the three
export lines regardless of expiration (it performs no expiration check);
console refuses for expiration strictly before now (at equality it
proceeds), and sync excludes a session exactly when its expiration is at
or before now. -/
theorem c4_expired_gating_amended (st : StoreFile) (profile secret : GoStr)
    (s : AWSSession) (now : GoTime)
    (hload : LoadCredentials st profile secret = .ok s) :
    switchStdout st profile secret =
        ["export AWS_ACCESS_KEY_ID=".toList ++ s.AccessKey,
         "export AWS_SECRET_ACCESS_KEY=".toList ++ s.SecretKey,
         "export AWS_SESSION_TOKEN=".toList ++ s.SessionToken] ∧
      ((consoleGate s now = some "session has expired".toList) ↔ now.after s.Expiration = true) ∧
      (s.Expiration.le now = true → ∀ existing, SyncAllToAWS [s] existing now = (none, 0)) ∧
      (s.Expiration.le now = true →
        ∀ sessions : List AWSSession,
          s ∉ sessions.filter (fun x => x.Expiration.after now)) := by
  refine ⟨?_, ?_, ?_, ?_⟩
  · unfold switchStdout
    rw [hload]
  · constructor
    · intro hgate
      by_cases hexp : now.after s.Expiration = true
      · exact hexp
      · exfalso
        rw [Bool.not_eq_true] at hexp
        unfold consoleGate at hgate
        rw [hexp] at hgate
        simp only [Bool.false_eq_true, if_false] at hgate
        split at hgate
        · simp only [Option.some.injEq] at hgate
          exact absurd hgate (by decide)
        · exact Option.noConfusion hgate
    · intro hexp
      unfold consoleGate
      rw [hexp]
      simp
  · intro hle existing
    have hafter : s.Expiration.after now = false := by
      rw [after_eq_false_iff_le]
      exact hle
    unfold SyncAllToAWS
    simp [hafter]
  · intro hle sessions hmem
    rw [List.mem_filter] at hmem
    have hafter : s.Expiration.after now = false := by
      rw [after_eq_false_iff_le]
      exact hle
    rw [hmem.2] at hafter
    exact Bool.noConfusion hafter

/-- Witness for the amended C4 gating at a concrete loaded session. -/
theorem c4_expired_gating_amended_witness :
    switchStdout (SaveCredentials c4Session.Profile c4Session "k".toList 0 .absent).2
        c4Session.Profile "k".toList =
        ["export AWS_ACCESS_KEY_ID=".toList ++ c4Session.AccessKey,
         "export AWS_SECRET_ACCESS_KEY=".toList ++ c4Session.SecretKey,
         "export AWS_SESSION_TOKEN=".toList ++ c4Session.SessionToken] ∧
      ((consoleGate c4Session ⟨500, 0⟩ = some "session has expired".toList) ↔
        GoTime.after ⟨500, 0⟩ c4Session.Expiration = true) ∧
      (c4Session.Expiration.le ⟨500, 0⟩ = true →
        ∀ existing, SyncAllToAWS [c4Session] existing ⟨500, 0⟩ = (none, 0)) ∧
      (c4Session.Expiration.le ⟨500, 0⟩ = true →
        ∀ sessions : List AWSSession,
          c4Session ∉ sessions.filter (fun x => x.Expiration.after ⟨500, 0⟩)) :=
  c4_expired_gating_amended
    (SaveCredentials c4Session.Profile c4Session "k".toList 0 .absent).2
    c4Session.Profile "k".toList c4Session ⟨500, 0⟩ (by decide)

/-- The stored source session of the C5 counterexample, still valid. -/
def c5Source : AWSSession := {
  AccessKey := "AKSRC".toList
  SecretKey := "SKSRC".toList
  SessionToken := "STSRC".toList
  Expiration := ⟨10000, 0⟩
  Profile := "src".toList
  RoleArn := []
  SessionName := []
  SourceProfile := []
  Region := []
  MfaArn := []
  Duration := 0
  Revoked := false }

/-- The target role session of the C5 counterexample: valid, not an MFA
base session, with a stored source and a requested duration of 7200
seconds. -/
def c5Target : AWSSession := {
  AccessKey := "AKT".toList
  SecretKey := "SKT".toList
  SessionToken := "STT".toList
  Expiration := ⟨9000, 0⟩
  Profile := "p".toList
  RoleArn := "arn:aws:iam::123:role/R5".toList
  SessionName := "p".toList
  SourceProfile := "src".toList
  Region := "eu-west-1".toList
  MfaArn := []
  Duration := 7200
  Revoked := false }

/-- The store of the C5 counterexample, holding the source and the
target. -/
def c5Store : StoreFile :=
  (SaveCredentials c5Target.Profile c5Target "k".toList 10
    (SaveCredentials c5Source.Profile c5Source "k".toList 0 .absent).2).2

/-- The environment of the C5 counterexample: STS grants every request. -/
def c5CmdEnv : CmdEnv := {
  sts := {
    assumeRole := fun _ => .ok ⟨"NA".toList, "NS".toList, "NT".toList, ⟨20000, 0⟩⟩
    getSessionToken := fun _ => .error [] }
  extProfiles := fun _ => false
  now := ⟨5000, 0⟩ }

/-- The world of the C5 counterexample. -/
def c5World : World := { store := c5Store, stdin := [], nonce := 100, awsFile := none }

/-- The AssumeRole request the silent refresh actually issues in the C5
counterexample. -/
def c5Request : AssumeRoleRequest := {
  creds := .staticCreds c5Source.AccessKey c5Source.SecretKey c5Source.SessionToken
  region := c5Target.Region
  RoleArn := c5Target.RoleArn
  RoleSessionName := c5Target.Profile
  DurationSeconds := some 3600
  SerialNumber := none
  TokenCode := none }

/-- Claim C5, counterexample: a valid target with stored duration 7200
takes the silent-refresh path with no interaction, but the AssumeRole
request carries the hard-coded duration 3600, not S.duration (7200, which
is above the 900 floor, so the claim demands 7200). -/
theorem c5_silent_refresh_duration_cex :
    c5Target.Duration = 7200 ∧
      (smartRefresh c5CmdEnv c5Target.Profile "k".toList false c5World).2 =
        [.stsAssumeRole c5Request] ∧
      c5Request.DurationSeconds = some 3600 ∧
      c5Request.DurationSeconds ≠ some c5Target.Duration := by
  refine ⟨by decide, by decide, by decide, by decide⟩

theorem store_envJson_of_load {st : StoreFile} {p k : GoStr} {s : AWSSession}
    (h : LoadCredentials st p k = .ok s) : ∃ data, st = .envJson data := by
  cases st with
  | absent => exact Except.noConfusion h
  | emptyFile => exact Except.noConfusion h
  | invalidJson raw => exact Except.noConfusion h
  | envJson data => exact ⟨data, rfl⟩

/-- The AssumeRole request the silent-refresh path issues for a target
with a stored source: the stored source credentials, the stored role ARN
and region, the profile name as session name, and the fixed duration of
3600 seconds. -/
def silentRefreshRequest (s src : AWSSession) : AssumeRoleRequest := {
  creds := .staticCreds src.AccessKey src.SecretKey src.SessionToken
  region := s.Region
  RoleArn := s.RoleArn
  RoleSessionName := s.Profile
  DurationSeconds := some 3600
  SerialNumber := none
  TokenCode := none }

/-- The session record the silent refresh persists: fresh credentials,
the old role ARN, source, region, MFA ARN and duration. -/
def refreshedSession (s : AWSSession) (stsc : StsCreds) : AWSSession := {
  Profile := s.Profile
  AccessKey := stsc.AccessKeyId
  SecretKey := stsc.SecretAccessKey
  SessionToken := stsc.SessionToken
  Expiration := stsc.Expiration
  RoleArn := s.RoleArn
  SessionName := []
  SourceProfile := s.SourceProfile
  Region := s.Region
  MfaArn := s.MfaArn
  Duration := s.Duration
  Revoked := false }

theorem PerformRefresh_silent (env : CmdEnv) (s : AWSSession)
    (secret : GoStr) (w : World) (src : AWSSession) (stsc : StsCreds)
    (hrole : s.RoleArn ≠ mfaSentinel) (hsrc : s.SourceProfile ≠ [])
    (hsrcload : LoadCredentials w.store s.SourceProfile secret = .ok src)
    (hsrcactive : env.now.after src.Expiration = false)
    (hsts : env.sts.assumeRole (silentRefreshRequest s src) = .ok stsc) :
    PerformRefresh env s secret s.Region w =
      (.ok (refreshedSession s stsc),
       (worldSave s.Profile (refreshedSession s stsc) secret w).2,
       [.stsAssumeRole (silentRefreshRequest s src)]) := by
  obtain ⟨data, hdata⟩ := store_envJson_of_load hsrcload
  unfold PerformRefresh
  rw [if_neg hrole, if_neg hsrc]
  simp only [hsrcload, hsrcactive, Bool.false_eq_true, if_false]
  have hreq : AssumeRoleRequest.mk
      (.staticCreds src.AccessKey src.SecretKey src.SessionToken)
      s.Region s.RoleArn s.Profile (some 3600) none none = silentRefreshRequest s src := rfl
  rw [hreq, hsts]
  simp only [worldSave, SaveCredentials, hdata]
  rfl

/-- Claim C5 as amended: whenever the target session is valid, interactive
mode is not forced, the session is not an MFA base session and has a
source profile, and the source resolves to a stored unexpired session,
single-session refresh performs a silent refresh with no user
interaction, and its STS AssumeRole request carries exactly
S.source_profile's stored credentials, S.role_arn, S.region and the
profile name as session name, with a fixed duration of 3600 seconds
(S.duration is ignored by the silent path). -/
theorem c5_silent_refresh_amended (env : CmdEnv) (profile secret : GoStr)
    (w : World) (s src : AWSSession) (stsc : StsCreds)
    (hload : LoadCredentials w.store profile secret = .ok s)
    (hexp : s.Expiration.before env.now = false)
    (hrole : s.RoleArn ≠ mfaSentinel)
    (hsrc : s.SourceProfile ≠ [])
    (hsrcload : LoadCredentials w.store s.SourceProfile secret = .ok src)
    (hsrcactive : env.now.after src.Expiration = false)
    (hsts : env.sts.assumeRole (silentRefreshRequest s src) = .ok stsc) :
    smartRefresh env profile secret false w =
      ((worldSave s.Profile (refreshedSession s stsc) secret w).2,
       [.stsAssumeRole (silentRefreshRequest s src)]) := by
  have hpr :=
    PerformRefresh_silent env s secret w src stsc hrole hsrc hsrcload hsrcactive hsts
  unfold smartRefresh
  simp only [hload]
  rw [if_pos ⟨by simp [hexp], by simp, hrole, hsrc⟩, hpr]

/-- Witness for the amended C5 silent refresh at the concrete store, world
and environment of the counterexample setup. -/
theorem c5_silent_refresh_amended_witness :
    smartRefresh c5CmdEnv c5Target.Profile "k".toList false c5World =
      ((worldSave c5Target.Profile
          (refreshedSession c5Target ⟨"NA".toList, "NS".toList, "NT".toList, ⟨20000, 0⟩⟩)
          "k".toList c5World).2,
       [.stsAssumeRole (silentRefreshRequest c5Target c5Source)]) :=
  c5_silent_refresh_amended c5CmdEnv c5Target.Profile "k".toList c5World
    c5Target c5Source ⟨"NA".toList, "NS".toList, "NT".toList, ⟨20000, 0⟩⟩
    (by decide) (by decide) (by decide) (by decide) (by decide) (by decide) rfl

/-- The GetSessionToken request login issues when an MFA ARN is present
and the source resolved to the stored session S. -/
def loginMfaRequest (S : AWSSession) (mfa region code : GoStr) : GetSessionTokenRequest := {
  creds := .staticCreds S.AccessKey S.SecretKey S.SessionToken
  region := region
  DurationSeconds := 3600
  SerialNumber := mfa
  TokenCode := code }

/-- The AssumeRole request login issues, under the given base
credentials. -/
def loginAssumeRequest (creds : BaseCreds) (role tgt region : GoStr) : AssumeRoleRequest := {
  creds := creds
  region := region
  RoleArn := role
  RoleSessionName := tgt
  DurationSeconds := some 3600
  SerialNumber := none
  TokenCode := none }

/-- The GetSessionToken request login issues when an MFA ARN is present,
on arbitrary resolved base credentials (a stored static triple or an
external shared profile). -/
def loginMfaRequestOn (creds : BaseCreds) (mfa region code : GoStr) : GetSessionTokenRequest := {
  creds := creds
  region := region
  DurationSeconds := 3600
  SerialNumber := mfa
  TokenCode := code }

/-- The stored MFA base session serving as login source in the C6
counterexample. -/
def c6Source : AWSSession := {
  AccessKey := "AK6".toList
  SecretKey := "SK6".toList
  SessionToken := "ST6".toList
  Expiration := ⟨10000, 0⟩
  Profile := "mfabase".toList
  RoleArn := mfaSentinel
  SessionName := []
  SourceProfile := "default".toList
  Region := []
  MfaArn := "arn:aws:iam::123:mfa/u".toList
  Duration := 43200
  Revoked := false }

/-- The store of the C6 counterexample, holding the MFA base session. -/
def c6Store : StoreFile :=
  (SaveCredentials c6Source.Profile c6Source "k".toList 0 .absent).2

/-- The environment of the C6 counterexample: STS grants every request. -/
def c6CmdEnv : CmdEnv := {
  sts := {
    assumeRole := fun _ => .ok ⟨"A2".toList, "S2".toList, "T2".toList, ⟨30000, 0⟩⟩
    getSessionToken := fun _ => .ok ⟨"A1".toList, "S1".toList, "T1".toList, ⟨20000, 0⟩⟩ }
  extProfiles := fun _ => true
  now := ⟨0, 0⟩ }

/-- The world of the C6 counterexample. -/
def c6World : World := { store := c6Store, stdin := ["123456".toList], nonce := 40, awsFile := none }

/-- Claim C6, counterexample: the login source resolves to a session
stored in the cloudctl store (a stored MFA session), yet with an mfa_arn
present the login path still performs the MFA step, issuing
GetSessionToken on the stored credentials before the AssumeRole call. -/
theorem c6_login_mfa_step_cex :
    LoadCredentials c6Store c6Source.Profile "k".toList = .ok c6Source ∧
      (loginRun c6CmdEnv c6Source.Profile "tgt".toList "arn:role".toList
          "arn:aws:iam::123:mfa/u".toList "ap-southeast-1".toList
          (some "k".toList) c6World).2 =
        [.promptMfaCode,
         .stsGetSessionToken
           (loginMfaRequest c6Source "arn:aws:iam::123:mfa/u".toList
             "ap-southeast-1".toList "123456".toList),
         .stsAssumeRole
           (loginAssumeRequest (.staticCreds "A1".toList "S1".toList "T1".toList)
             "arn:role".toList "tgt".toList "ap-southeast-1".toList)] := by
  exact ⟨by decide, by decide⟩

/-- The acquisition stage performs the MFA step exactly when an mfa_arn
is present, whatever base credentials the source resolved to: without
one, AssumeRole is called directly on the resolved base; with one,
GetSessionToken is first issued on the resolved base and AssumeRole then
uses the MFA-derived triple. -/
theorem loginAcquire_mfa (env : CmdEnv) (src tgt role region k : GoStr)
    (w : World) (creds0 : BaseCreds) :
    ((loginAcquire env src tgt role [] region (some k) creds0 w).2 =
        [.stsAssumeRole (loginAssumeRequest creds0 role tgt region)]) ∧
      (∀ mfa c, mfa ≠ [] →
        env.sts.getSessionToken (loginMfaRequestOn creds0 mfa region (popStdin w).1) = .ok c →
        (loginAcquire env src tgt role mfa region (some k) creds0 w).2 =
          [.promptMfaCode,
           .stsGetSessionToken (loginMfaRequestOn creds0 mfa region (popStdin w).1),
           .stsAssumeRole (loginAssumeRequest
             (.staticCreds c.AccessKeyId c.SecretAccessKey c.SessionToken) role tgt region)]) := by
  constructor
  · unfold loginAcquire
    simp only [Option.isSome_some, Option.getD_some, if_true]
    have hreq : AssumeRoleRequest.mk creds0 region role tgt (some 3600) none none =
        loginAssumeRequest creds0 role tgt region := rfl
    simp only [ne_eq, not_true_eq_false, if_false, reduceIte]
    rcases hassume : env.sts.assumeRole (loginAssumeRequest creds0 role tgt region) with e | c
    · rw [show env.sts.assumeRole (AssumeRoleRequest.mk creds0 region role tgt
        (some 3600) none none) = .error e from hreq ▸ hassume]
      rfl
    · rw [show env.sts.assumeRole (AssumeRoleRequest.mk creds0 region role tgt
        (some 3600) none none) = .ok c from hreq ▸ hassume]
      rfl
  · intro mfa c hmfa hgst
    unfold loginAcquire
    simp only [Option.isSome_some, Option.getD_some, if_true]
    rw [if_pos hmfa]
    have hgst1 : env.sts.getSessionToken (GetSessionTokenRequest.mk creds0
        region 3600 mfa (popStdin w).1) = .ok c := hgst
    rw [hgst1]
    dsimp only
    have hreq2 : AssumeRoleRequest.mk
        (.staticCreds c.AccessKeyId c.SecretAccessKey c.SessionToken)
        region role tgt (some 3600) none none =
          loginAssumeRequest (.staticCreds c.AccessKeyId c.SecretAccessKey c.SessionToken) role tgt region := rfl
    rcases hassume : env.sts.assumeRole (loginAssumeRequest
        (.staticCreds c.AccessKeyId c.SecretAccessKey c.SessionToken) role tgt region) with e2 | c2
    · rw [show env.sts.assumeRole (AssumeRoleRequest.mk
        (.staticCreds c.AccessKeyId c.SecretAccessKey c.SessionToken)
        region role tgt (some 3600) none none) = .error e2 from hreq2 ▸ hassume]
      rfl
    · rw [show env.sts.assumeRole (AssumeRoleRequest.mk
        (.staticCreds c.AccessKeyId c.SecretAccessKey c.SessionToken)
        region role tgt (some 3600) none none) = .ok c2 from hreq2 ▸ hassume]
      rfl

/-- Claim C6 as amended: during login the MFA step is performed exactly
when an mfa_arn is present, regardless of whether the source credentials
resolve to a session stored in the cloudctl store (the base is then its
static triple) or to an external AWS shared profile (the base is then
the shared-profile source): without an mfa_arn the resolved base
credentials are used directly for the AssumeRole call; with an mfa_arn,
GetSessionToken is first issued on the resolved base credentials and the
AssumeRole call then uses the MFA-derived triple. -/
theorem c6_login_mfa_amended (env : CmdEnv) (src tgt role region k : GoStr)
    (w : World) (creds0 : BaseCreds)
    (hresolve :
      (∃ S, LoadCredentials w.store src k = .ok S ∧
        creds0 = .staticCreds S.AccessKey S.SecretKey S.SessionToken) ∨
      ((∃ e, LoadCredentials w.store src k = .error e) ∧
        env.extProfiles src = true ∧ creds0 = .sharedProfile src)) :
    ((loginRun env src tgt role [] region (some k) w).2 =
        [.stsAssumeRole (loginAssumeRequest creds0 role tgt region)]) ∧
      (∀ mfa c, mfa ≠ [] →
        env.sts.getSessionToken (loginMfaRequestOn creds0 mfa region (popStdin w).1) = .ok c →
        (loginRun env src tgt role mfa region (some k) w).2 =
          [.promptMfaCode,
           .stsGetSessionToken (loginMfaRequestOn creds0 mfa region (popStdin w).1),
           .stsAssumeRole (loginAssumeRequest
             (.staticCreds c.AccessKeyId c.SecretAccessKey c.SessionToken) role tgt region)]) := by
  have hrun : ∀ m, loginRun env src tgt role m region (some k) w =
      loginAcquire env src tgt role m region (some k) creds0 w := by
    intro m
    unfold loginRun
    rcases hresolve with ⟨S, hload, hc⟩ | ⟨⟨e, hload⟩, hext, hc⟩
    · simp only [Option.isSome_some, Option.getD_some, if_true, hload]
      rw [hc]
    · simp only [Option.isSome_some, Option.getD_some, if_true, hload, hext, reduceIte]
      rw [hc]
  constructor
  · rw [hrun]
    exact (loginAcquire_mfa env src tgt role region k w creds0).1
  · intro mfa c hmfa hgst
    rw [hrun]
    exact (loginAcquire_mfa env src tgt role region k w creds0).2 mfa c hmfa hgst

/-- Witness for the amended C6 login behaviour, exercising all four
paths at the concrete store and environment of the counterexample setup:
a stored source without and with an mfa_arn, and an external-profile
source without and with an mfa_arn. -/
theorem c6_login_mfa_amended_witness :
    ((loginRun c6CmdEnv c6Source.Profile "tgt".toList "arn:role".toList []
          "ap-southeast-1".toList (some "k".toList) c6World).2 =
        [.stsAssumeRole (loginAssumeRequest
          (.staticCreds c6Source.AccessKey c6Source.SecretKey c6Source.SessionToken)
          "arn:role".toList "tgt".toList "ap-southeast-1".toList)]) ∧
      ((loginRun c6CmdEnv c6Source.Profile "tgt".toList "arn:role".toList
            "arn:aws:iam::123:mfa/u".toList "ap-southeast-1".toList
            (some "k".toList) c6World).2 =
        [.promptMfaCode,
         .stsGetSessionToken (loginMfaRequestOn
           (.staticCreds c6Source.AccessKey c6Source.SecretKey c6Source.SessionToken)
           "arn:aws:iam::123:mfa/u".toList "ap-southeast-1".toList (popStdin c6World).1),
         .stsAssumeRole (loginAssumeRequest
           (.staticCreds "A1".toList "S1".toList "T1".toList)
           "arn:role".toList "tgt".toList "ap-southeast-1".toList)]) ∧
      ((loginRun c6CmdEnv "ext".toList "tgt".toList "arn:role".toList []
            "ap-southeast-1".toList (some "k".toList) c6World).2 =
        [.stsAssumeRole (loginAssumeRequest (.sharedProfile "ext".toList)
          "arn:role".toList "tgt".toList "ap-southeast-1".toList)]) ∧
      ((loginRun c6CmdEnv "ext".toList "tgt".toList "arn:role".toList
            "arn:aws:iam::123:mfa/u".toList "ap-southeast-1".toList
            (some "k".toList) c6World).2 =
        [.promptMfaCode,
         .stsGetSessionToken (loginMfaRequestOn (.sharedProfile "ext".toList)
           "arn:aws:iam::123:mfa/u".toList "ap-southeast-1".toList (popStdin c6World).1),
         .stsAssumeRole (loginAssumeRequest
           (.staticCreds "A1".toList "S1".toList "T1".toList)
           "arn:role".toList "tgt".toList "ap-southeast-1".toList)]) :=
  ⟨(c6_login_mfa_amended c6CmdEnv c6Source.Profile "tgt".toList "arn:role".toList
      "ap-southeast-1".toList "k".toList c6World
      (.staticCreds c6Source.AccessKey c6Source.SecretKey c6Source.SessionToken)
      (Or.inl ⟨c6Source, by decide, rfl⟩)).1,
   (c6_login_mfa_amended c6CmdEnv c6Source.Profile "tgt".toList "arn:role".toList
      "ap-southeast-1".toList "k".toList c6World
      (.staticCreds c6Source.AccessKey c6Source.SecretKey c6Source.SessionToken)
      (Or.inl ⟨c6Source, by decide, rfl⟩)).2
     "arn:aws:iam::123:mfa/u".toList ⟨"A1".toList, "S1".toList, "T1".toList, ⟨20000, 0⟩⟩
     (by decide) (by decide),
   (c6_login_mfa_amended c6CmdEnv "ext".toList "tgt".toList "arn:role".toList
      "ap-southeast-1".toList "k".toList c6World (.sharedProfile "ext".toList)
      (Or.inr ⟨⟨"profile not found in store".toList, by decide⟩, rfl, rfl⟩)).1,
   (c6_login_mfa_amended c6CmdEnv "ext".toList "tgt".toList "arn:role".toList
      "ap-southeast-1".toList "k".toList c6World (.sharedProfile "ext".toList)
      (Or.inr ⟨⟨"profile not found in store".toList, by decide⟩, rfl, rfl⟩)).2
     "arn:aws:iam::123:mfa/u".toList ⟨"A1".toList, "S1".toList, "T1".toList, ⟨20000, 0⟩⟩
     (by decide) (by decide)⟩

/-- The expired stored MFA base session of the C3 failing input. -/
def c3MfaSession : AWSSession := {
  AccessKey := "AKM".toList
  SecretKey := "SKM".toList
  SessionToken := "STM".toList
  Expiration := ⟨100, 0⟩
  Profile := "m".toList
  RoleArn := mfaSentinel
  SessionName := []
  SourceProfile := "base".toList
  Region := "ap-southeast-1".toList
  MfaArn := "arn:aws:iam::123:mfa/u".toList
  Duration := 43200
  Revoked := false }

/-- The expired stored role session of the C3 failing input, chained from
the MFA session. -/
def c3RoleSession : AWSSession := {
  AccessKey := "AKA".toList
  SecretKey := "SKA".toList
  SessionToken := "STA".toList
  Expiration := ⟨200, 0⟩
  Profile := "a".toList
  RoleArn := "arn:aws:iam::123:role/RA".toList
  SessionName := "a".toList
  SourceProfile := "m".toList
  Region := "ap-southeast-1".toList
  MfaArn := []
  Duration := 3600
  Revoked := false }

/-- The store of the C3 failing input: the MFA source and its dependent
role session. -/
def c3Store : StoreFile :=
  (SaveCredentials c3RoleSession.Profile c3RoleSession "k".toList 10
    (SaveCredentials c3MfaSession.Profile c3MfaSession "k".toList 0 .absent).2).2

/-- The environment of the C3 failing input: now is past both
expirations; STS rejects everything (both sessions are expired, so no
silent call can succeed anyway). -/
def c3CmdEnv : CmdEnv := {
  sts := {
    assumeRole := fun _ => .error "expired credentials".toList
    getSessionToken := fun _ => .error "expired credentials".toList }
  extProfiles := fun _ => false
  now := ⟨1000, 0⟩ }

/-- The world of the C3 failing input: the user answers no to every
prompt. -/
def c3World : World :=
  { store := c3Store, stdin := ["n".toList, "n".toList], nonce := 100, awsFile := none }

/-- Claim C3: evaluating batch refresh on the failing input.  The user
declines to restore the expired MFA source m in the MFA pass, yet when
the dependent role session a is processed the planner asks about m a
second time, because the decline is not recorded in restoredSources
during the MFA pass: two interactive prompts are issued for the single
distinct source m, where the claim allows at most one.  Both sessions end
up counted as skipped. -/
theorem c3_batch_prompts_twice_for_declined_source :
    (refreshAllSessions c3CmdEnv "k".toList c3World).2 =
      ([.askRestore "m".toList, .askRestore "m".toList], (0, 2, 0)) := by
  decide

/-- The skipSection update of sync.go step 4 for one line: a section
header resets the flag according to whether its name is a target; any
other line leaves it. -/
def sectionSkipStep (T : List GoStr) (skip : Bool) (l : GoStr) : Bool :=
  let t := trimSpace l
  if isSectionHeader t then T.contains (sectionNameOf t) else skip

/-- Position-wise reading of the walk state: the value of skipSection
after processing the given prefix of lines. -/
def sectionSkipAfter (T : List GoStr) (skip : Bool) (pre : List GoStr) : Bool :=
  pre.foldl (sectionSkipStep T) skip

/-- Position-wise reading of the managed-comment rule: line i is a
managed comment whose look-ahead (skipping blanks and comments) reaches a
section header naming a target. -/
def commentDropAt (T : List GoStr) (L : List GoStr) (i : Nat) : Bool :=
  isManagedComment (trimSpace (L.getD i [])) &&
    (match lookaheadHeaderName (L.drop (i + 1)) with
     | some h => T.contains h
     | none => false)

/-- Modelled from the spec (amended): the positional description of which
lines survive the sync rewrite: line i is removed exactly when it lies in
a section whose most recent header names a target (the fold of the skip
state over the prefix up to and including i), or when it is a managed
comment pointing at a target; every other line is kept, in order. -/
def posFilter (T : List GoStr) (skip : Bool) (L : List GoStr) : List GoStr :=
  (List.range L.length).filterMap (fun i =>
    if sectionSkipAfter T skip (L.take (i + 1)) || commentDropAt T L i then none
    else some (L.getD i []))

theorem syncFilter_eq_posFilter (T : List GoStr) :
    ∀ (L : List GoStr) (skip : Bool), syncFilter T skip L = posFilter T skip L := by
  intro L
  induction L with
  | nil => intro skip; rfl
  | cons l rest ih =>
    intro skip
    have hshift : ∀ i ∈ List.range rest.length,
        ((fun j =>
          if sectionSkipAfter T skip ((l :: rest).take (j + 1)) ||
              commentDropAt T (l :: rest) j then none
          else some ((l :: rest).getD j [])) ∘ Nat.succ) i =
        (fun j =>
          if sectionSkipAfter T (sectionSkipStep T skip l) (rest.take (j + 1)) ||
              commentDropAt T rest j then none
          else some (rest.getD j [])) i := by
      intro i _
      rfl
    have htail :
        (List.range rest.length).filterMap
          ((fun j =>
            if sectionSkipAfter T skip ((l :: rest).take (j + 1)) ||
                commentDropAt T (l :: rest) j then none
            else some ((l :: rest).getD j [])) ∘ Nat.succ) =
        posFilter T (sectionSkipStep T skip l) rest := by
      rw [List.filterMap_congr hshift]
      rfl
    have hsplit : posFilter T skip (l :: rest) =
        (if sectionSkipStep T skip l || commentDropAt T (l :: rest) 0 then
          posFilter T (sectionSkipStep T skip l) rest
        else l :: posFilter T (sectionSkipStep T skip l) rest) := by
      unfold posFilter
      rw [show (l :: rest).length = rest.length + 1 from rfl,
        List.range_succ_eq_map, List.filterMap_cons, List.filterMap_map]
      rw [show sectionSkipAfter T skip ((l :: rest).take (0 + 1)) = sectionSkipStep T skip l from rfl]
      rw [show (l :: rest).getD 0 [] = l from rfl]
      have htail1 := htail
      unfold posFilter at htail1
      rw [htail1]
      cases hc : sectionSkipStep T skip l || commentDropAt T (l :: rest) 0 <;> simp [hc]
    rw [hsplit]
    have hstep : syncFilter T skip (l :: rest) =
        (if commentDropAt T (l :: rest) 0 then syncFilter T (sectionSkipStep T skip l) rest
         else if sectionSkipStep T skip l then syncFilter T (sectionSkipStep T skip l) rest
         else l :: syncFilter T (sectionSkipStep T skip l) rest) := by
      rfl
    rw [hstep, ih]
    by_cases hd : commentDropAt T (l :: rest) 0 = true <;>
      by_cases hs : sectionSkipStep T skip l = true <;>
        simp [hd, hs]

/-- The active target session of the C7 counterexample, named prod. -/
def c7pSession : AWSSession := {
  AccessKey := "PAK".toList
  SecretKey := "PSK".toList
  SessionToken := "PST".toList
  Expiration := ⟨10000, 0⟩
  Profile := "prod".toList
  RoleArn := "arn:aws:iam::123:role/P".toList
  SessionName := "prod".toList
  SourceProfile := "default".toList
  Region := []
  MfaArn := []
  Duration := 3600
  Revoked := false }

/-- The pre-existing aws credentials file of the C7 counterexample: a
foreign untagged section named prod (no managed comment anywhere), a
second foreign section, and two trailing blank lines. -/
def c7Orig : GoStr :=
  joinLinesCL ["[prod]".toList, "key = v".toList, [],
    "[other]".toList, "ok = 1".toList, [], []]

/-- The bytes the C7 counterexample run writes. -/
def c7OutExpected : GoStr :=
  joinLinesCL ["[other]".toList, "ok = 1".toList, [],
    "; Managed by cloudctl (Role Session) - Expires: 35200".toList,
    "[prod]".toList,
    "aws_access_key_id = PAK".toList,
    "aws_secret_access_key = PSK".toList,
    "aws_session_token = PST".toList, []]

/-- Claim C7, counterexample: the pre-existing file contains no managed
comment, so by the claim's ownership rule no section is CloudCtl-owned
and every line must be preserved; yet sync removes the foreign untagged
section whose name equals the target profile (its key line is gone from
the output) and also drops one of the trailing blank lines. -/
theorem c7_sync_foreign_section_cex :
    ((splitLinesCL c7Orig).all (fun l => !(isManagedComment (trimSpace l))) = true) ∧
      (SyncAllToAWS [c7pSession] (some c7Orig) ⟨5000, 0⟩).1 = some c7OutExpected ∧
      "key = v".toList ∈ splitLinesCL c7Orig ∧
      "key = v".toList ∉ splitLinesCL c7OutExpected ∧
      (splitLinesCL c7Orig).count [] = 3 ∧
      (splitLinesCL c7OutExpected).count [] = 2 := by
  refine ⟨by decide, by decide, by decide, by decide, by decide, by decide⟩

/-- Claim C7 as amended: the sync rewrite keeps exactly those lines of
the pre-existing file that neither lie in a section whose most recent
header names an active target profile (owned or not: a foreign untagged
section is removed when its name equals a target) nor are managed
comments whose look-ahead header names a target, in their original
order; trailing blank lines are then stripped, one blank separator is
emitted when anything remains, and the managed blocks are appended. -/
theorem c7_sync_rewrite_amended (existingLines : List GoStr) (active : List AWSSession) :
    rewriteCreds existingLines active =
      (let kept := stripTrailingBlank
        (posFilter (active.map (fun s => s.Profile)) false existingLines)
       (if kept ≠ [] ∧ kept.getLast? ≠ some [] then kept ++ [[]] else kept) ++
        appendBlocks active) := by
  simp only [rewriteCreds]
  rw [syncFilter_eq_posFilter]

theorem dropWhile_append_singleton {p : Char → Bool} {c : Char}
    (hc : p c = false) (xs : List Char) :
    List.dropWhile p (xs ++ [c]) = List.dropWhile p xs ++ [c] := by
  induction xs with
  | nil => simp [List.dropWhile, hc]
  | cons a l ih =>
    by_cases ha : p a = true
    · simp only [List.cons_append, List.dropWhile_cons, ha, if_true, ih]
    · rw [Bool.not_eq_true] at ha
      simp [List.dropWhile_cons, ha]

theorem head_dropWhile_not {α : Type} {p : α → Bool} :
    ∀ {l : List α} {a : α} {t : List α}, List.dropWhile p l = a :: t → p a = false := by
  intro l
  induction l with
  | nil => intro a t h; exact List.noConfusion h
  | cons b l ih =>
    intro a t h
    by_cases hb : p b = true
    · rw [List.dropWhile_cons, if_pos hb] at h
      exact ih h
    · rw [Bool.not_eq_true] at hb
      rw [List.dropWhile_cons, hb] at h
      simp only [Bool.false_eq_true, if_false] at h
      cases h
      exact hb

theorem dropWhile_dropWhile {α : Type} (p : α → Bool) (l : List α) :
    List.dropWhile p (List.dropWhile p l) = List.dropWhile p l := by
  rcases h : List.dropWhile p l with _ | ⟨a, t⟩
  · rfl
  · rw [List.dropWhile_cons, head_dropWhile_not h]
    simp

theorem trimSpace_cons_of_head (c : Char) (rest : GoStr) (hc : isGoSpace c = false) :
    trimSpace (c :: rest) =
      c :: (List.dropWhile isGoSpace rest.reverse).reverse := by
  unfold trimSpace
  rw [List.dropWhile_cons, hc]
  simp only [Bool.false_eq_true, if_false, List.reverse_cons]
  rw [dropWhile_append_singleton hc]
  simp

theorem trimSpace_eq_self (c : Char) (rest : GoStr) (d : Char)
    (hc : isGoSpace c = false) (hd : isGoSpace d = false)
    (hlast : (c :: rest).getLast? = some d) :
    trimSpace (c :: rest) = c :: rest := by
  rw [trimSpace_cons_of_head c rest hc]
  rcases hrev : rest.reverse with _ | ⟨e, t⟩
  · have hnil : rest = [] := by
      have h1 := congrArg List.reverse hrev
      simpa using h1
    subst hnil
    simp
  · have hrest : rest = t.reverse ++ [e] := by
      have h1 := congrArg List.reverse hrev
      simpa using h1
    have hlaste : (c :: rest).getLast? = some e := by
      rw [hrest, show c :: (t.reverse ++ [e]) = (c :: t.reverse) ++ [e] from rfl,
        List.getLast?_concat]
    have he : e = d := by
      rw [hlaste] at hlast
      exact Option.some.inj hlast
    subst he
    rw [List.dropWhile_cons, hd]
    simp only [Bool.false_eq_true, if_false, List.reverse_cons]
    rw [← hrest]

theorem formatNat_chars {c : Char} {n : Nat} (h : c ∈ formatNat n) :
    ∃ d, d < 10 ∧ c = digitChar d := mem_formatNat h

theorem formatInt_chars {c : Char} {i : Int} (h : c ∈ formatInt i) :
    c = '-' ∨ ∃ d, d < 10 ∧ c = digitChar d := by
  unfold formatInt at h
  split at h
  · rcases List.mem_cons.mp h with h | h
    · exact Or.inl h
    · exact Or.inr (formatNat_chars h)
  · exact Or.inr (formatNat_chars h)

theorem formatInt_no_space {c : Char} {i : Int} (h : c ∈ formatInt i) :
    isGoSpace c = false := by
  rcases formatInt_chars h with h | ⟨d, hd, h⟩
  · subst h; decide
  · subst h; interval_cases d <;> decide

theorem formatInt_no_newline {i : Int} : '\n' ∉ formatInt i := by
  intro h
  have := formatInt_no_space h
  exact absurd this (by decide)

theorem formatInt_ne_nil (i : Int) : formatInt i ≠ [] := by
  unfold formatInt
  split
  · simp
  · exact formatNat_ne_nil _

/-- Does a line list contain a real line (one that is neither blank nor a
comment), i.e. one at which the managed-comment look-ahead stops. -/
def hasRealLine : List GoStr → Bool
  | [] => false
  | l :: rest =>
    let t := trimSpace l
    if t = [] || goHasPfx ";".toList t then hasRealLine rest else true

/-- Every managed comment in the list is followed, within the list, by a
real line: no managed comment dangles at the end with only blanks and
comments after it. -/
def noDanglingManaged : List GoStr → Bool
  | [] => true
  | l :: rest =>
    (!(isManagedComment (trimSpace l)) || hasRealLine rest) && noDanglingManaged rest

theorem lookahead_append_of_hasRealLine (suffix : List GoStr) :
    ∀ P : List GoStr, hasRealLine P = true →
      lookaheadHeaderName (P ++ suffix) = lookaheadHeaderName P := by
  intro P
  induction P with
  | nil => intro h; exact Bool.noConfusion h
  | cons l rest ih =>
    intro h
    unfold hasRealLine at h
    unfold lookaheadHeaderName
    simp only [List.cons_append]
    dsimp only at h ⊢
    by_cases hb : (decide (trimSpace l = []) || goHasPfx ";".toList (trimSpace l)) = true
    · rw [if_pos hb, if_pos hb]
      rw [if_pos hb] at h
      exact ih h
    · rw [if_neg hb, if_neg hb]

theorem lookahead_mem {L : List GoStr} {h : GoStr}
    (hl : lookaheadHeaderName L = some h) :
    ∃ l ∈ L, isSectionHeader (trimSpace l) = true ∧
      h = sectionNameOf (trimSpace l) := by
  induction L with
  | nil => exact Option.noConfusion hl
  | cons l rest ih =>
    unfold lookaheadHeaderName at hl
    dsimp only at hl
    by_cases hb : (decide (trimSpace l = []) || goHasPfx ";".toList (trimSpace l)) = true
    · rw [if_pos hb] at hl
      obtain ⟨l1, h1, hp⟩ := ih hl
      exact ⟨l1, List.mem_cons_of_mem l h1, hp⟩
    · rw [if_neg hb] at hl
      by_cases hh : isSectionHeader (trimSpace l) = true
      · rw [if_pos hh] at hl
        exact ⟨l, List.mem_cons_self l rest, hh, (Option.some.inj hl).symm⟩
      · rw [if_neg hh] at hl
        exact Option.noConfusion hl

theorem mem_syncFilter {T : List GoStr} :
    ∀ {L : List GoStr} {skip : Bool} {l : GoStr}, l ∈ syncFilter T skip L → l ∈ L := by
  intro L
  induction L with
  | nil => intro skip l h; exact absurd h (List.not_mem_nil l)
  | cons a rest ih =>
    intro skip l h
    have hstep : syncFilter T skip (a :: rest) =
        (if commentDropAt T (a :: rest) 0 then syncFilter T (sectionSkipStep T skip a) rest
         else if sectionSkipStep T skip a then syncFilter T (sectionSkipStep T skip a) rest
         else a :: syncFilter T (sectionSkipStep T skip a) rest) := rfl
    rw [hstep] at h
    split at h
    · exact List.mem_cons_of_mem a (ih h)
    · split at h
      · exact List.mem_cons_of_mem a (ih h)
      · rcases List.mem_cons.mp h with h | h
        · exact h ▸ List.mem_cons_self a rest
        · exact List.mem_cons_of_mem a (ih h)

theorem syncFilter_no_target_header {T : List GoStr} :
    ∀ {L : List GoStr} {skip : Bool} {l : GoStr}, l ∈ syncFilter T skip L →
      isSectionHeader (trimSpace l) = true →
      T.contains (sectionNameOf (trimSpace l)) = false := by
  intro L
  induction L with
  | nil => intro skip l h; exact absurd h (List.not_mem_nil l)
  | cons a rest ih =>
    intro skip l h hhdr
    have hstep : syncFilter T skip (a :: rest) =
        (if commentDropAt T (a :: rest) 0 then syncFilter T (sectionSkipStep T skip a) rest
         else if sectionSkipStep T skip a then syncFilter T (sectionSkipStep T skip a) rest
         else a :: syncFilter T (sectionSkipStep T skip a) rest) := rfl
    rw [hstep] at h
    split at h
    · exact ih h hhdr
    · split at h
      · exact ih h hhdr
      · rename_i hskip1
        rw [Bool.not_eq_true] at hskip1
        rcases List.mem_cons.mp h with h | h
        · subst h
          unfold sectionSkipStep at hskip1
          rw [if_pos hhdr] at hskip1
          exact hskip1
        · exact ih h hhdr

theorem mem_stripTrailingBlank {X : List GoStr} {l : GoStr}
    (h : l ∈ stripTrailingBlank X) : l ∈ X := by
  unfold stripTrailingBlank at h
  rw [List.mem_reverse] at h
  have h1 := (List.dropWhile_sublist _).subset h
  rw [List.mem_reverse] at h1
  exact h1

theorem stripTrailingBlank_append_blank (X : List GoStr) :
    stripTrailingBlank (X ++ [[]]) = stripTrailingBlank X := by
  unfold stripTrailingBlank
  rw [List.reverse_append]
  rw [show ([[]] : List GoStr).reverse ++ X.reverse = [] :: X.reverse from rfl]
  rw [List.dropWhile_cons, if_pos (by decide)]

theorem stripTrailingBlank_idem (X : List GoStr) :
    stripTrailingBlank (stripTrailingBlank X) = stripTrailingBlank X := by
  unfold stripTrailingBlank
  rw [List.reverse_reverse, dropWhile_dropWhile]

theorem stripTrailingBlank_getLast_ne_blank {X : List GoStr}
    (h : stripTrailingBlank X ≠ []) : (stripTrailingBlank X).getLast? ≠ some [] := by
  unfold stripTrailingBlank at h ⊢
  rcases hdw : List.dropWhile (fun l => trimSpace l = []) X.reverse with _ | ⟨a, t⟩
  · rw [hdw] at h
    exact absurd rfl h
  · have ha := head_dropWhile_not hdw
    simp only [decide_eq_false_iff_not] at ha
    rw [show (a :: t).reverse = t.reverse ++ [a] from by simp, List.getLast?_concat]
    intro hcontra
    have : a = [] := Option.some.inj hcontra
    subst this
    exact ha rfl

theorem mem_of_getLast?_eq {α : Type} {l : List α} {a : α}
    (h : l.getLast? = some a) : a ∈ l := by
  obtain ⟨hne, heq⟩ := List.mem_getLast?_eq_getLast (by rw [h]; rfl)
  rw [heq]
  exact List.getLast_mem hne

/-- Is a character one of the brackets the section-name Trim cuts. -/
def bracketChar (c : Char) : Bool := c == '[' || c == ']'

/-- A profile name that survives the INI round trip of the synchronizer: it
is non-empty, contains no newline, and neither starts nor ends with a
bracket, so that the written section header parses back to the same
name. -/
def cleanProfile (p : GoStr) : Bool :=
  !p.isEmpty && !p.contains '\n' &&
  (match p.head? with | some c => !bracketChar c | none => false) &&
  (match p.getLast? with | some c => !bracketChar c | none => false)

/-- A session whose written block parses back line by line: a clean
profile name and credential strings free of newlines. -/
def cleanSession (s : AWSSession) : Bool :=
  cleanProfile s.Profile && !s.AccessKey.contains '\n' &&
  !s.SecretKey.contains '\n' && !s.SessionToken.contains '\n'

theorem formatBKK_ne_nil (t : GoTime) : formatBKK t ≠ [] := formatInt_ne_nil _

theorem trimSpace_managedComment (s : AWSSession) :
    trimSpace (managedCommentOf s) = managedCommentOf s := by
  have hshape : managedCommentOf s =
      ';' :: ((" Managed by cloudctl (".toList ++
        (if s.RoleArn = mfaSentinel then "MFA Session".toList else "Role Session".toList) ++
        ") - Expires: ".toList) ++ formatBKK s.Expiration) := by
    unfold managedCommentOf
    split <;> rfl
  rcases hlast : (formatBKK s.Expiration).getLast? with _ | d
  · exact absurd (List.getLast?_eq_none_iff.mp hlast) (formatBKK_ne_nil _)
  · have hd : isGoSpace d = false :=
      formatInt_no_space (mem_of_getLast?_eq hlast)
    rw [hshape]
    apply trimSpace_eq_self _ _ d (by decide) hd
    rw [show ';' :: ((" Managed by cloudctl (".toList ++
        (if s.RoleArn = mfaSentinel then "MFA Session".toList else "Role Session".toList) ++
        ") - Expires: ".toList) ++ formatBKK s.Expiration) =
      (';' :: (" Managed by cloudctl (".toList ++
        (if s.RoleArn = mfaSentinel then "MFA Session".toList else "Role Session".toList) ++
        ") - Expires: ".toList)) ++ formatBKK s.Expiration from rfl]
    rw [List.getLast?_append_of_ne_nil _ (formatBKK_ne_nil s.Expiration)]
    exact hlast

theorem isPrefixOf_append_self (l z : GoStr) : l.isPrefixOf (l ++ z) = true := by
  induction l with
  | nil => simp [List.isPrefixOf]
  | cons a t ih => simp [List.isPrefixOf, ih]

theorem managedCommentOf_isManaged (s : AWSSession) :
    isManagedComment (trimSpace (managedCommentOf s)) = true := by
  rw [trimSpace_managedComment]
  unfold isManagedComment goHasPfx
  rw [show managedCommentOf s = "; Managed by cloudctl".toList ++
    (" (".toList ++
      (if s.RoleArn = mfaSentinel then "MFA Session".toList else "Role Session".toList) ++
      ") - Expires: ".toList ++ formatBKK s.Expiration) from by
    unfold managedCommentOf
    split <;> simp]
  exact isPrefixOf_append_self _ _

theorem managedCommentOf_not_header (s : AWSSession) :
    isSectionHeader (trimSpace (managedCommentOf s)) = false := by
  rw [trimSpace_managedComment]
  have hshape : managedCommentOf s = ';' :: ((" Managed by cloudctl (".toList ++
      (if s.RoleArn = mfaSentinel then "MFA Session".toList else "Role Session".toList) ++
      ") - Expires: ".toList) ++ formatBKK s.Expiration) := by
    unfold managedCommentOf
    split <;> rfl
  rw [hshape]
  unfold isSectionHeader goHasPfx
  simp [List.isPrefixOf]

theorem sectionSkipStep_managedComment (T : List GoStr) (skip : Bool) (s : AWSSession) :
    sectionSkipStep T skip (managedCommentOf s) = skip := by
  unfold sectionSkipStep
  dsimp only
  rw [if_neg (by rw [managedCommentOf_not_header s]; exact Bool.false_ne_true)]

/-- The section header line the synchronizer writes for a session. -/
def headerLineOf (p : GoStr) : GoStr := '[' :: (p ++ [']'])

theorem trimSpace_headerLine (p : GoStr) :
    trimSpace (headerLineOf p) = headerLineOf p := by
  unfold headerLineOf
  apply trimSpace_eq_self _ _ ']' (by decide) (by decide)
  rw [show '[' :: (p ++ [']']) = ('[' :: p) ++ [']'] from rfl, List.getLast?_concat]

theorem isSectionHeader_headerLine (p : GoStr) :
    isSectionHeader (headerLineOf p) = true := by
  unfold isSectionHeader headerLineOf goHasPfx goHasSfx
  rw [show ('[' :: (p ++ [']'])) = ('[' :: p) ++ [']'] from rfl, List.reverse_append]
  simp [List.isPrefixOf]

theorem contains_brackets (c : Char) : ("[]".toList).contains c = bracketChar c := by
  have hcut : "[]".toList = ['[', ']'] := rfl
  rw [hcut]
  by_cases h1 : c = '['
  · subst h1; decide
  · by_cases h2 : c = ']'
    · subst h2; decide
    · have e3 : (c == '[') = false := beq_eq_false_iff_ne.mpr h1
      have e4 : (c == ']') = false := beq_eq_false_iff_ne.mpr h2
      have e1 : ('[' == c) = false := beq_eq_false_iff_ne.mpr (Ne.symm h1)
      have e2 : (']' == c) = false := beq_eq_false_iff_ne.mpr (Ne.symm h2)
      simp [List.contains, List.elem, bracketChar, e1, e2, e3, e4]

theorem sectionNameOf_headerLine (p : GoStr) (hp : cleanProfile p = true) :
    sectionNameOf (headerLineOf p) = p := by
  unfold cleanProfile at hp
  simp only [Bool.and_eq_true] at hp
  obtain ⟨⟨⟨hne, _⟩, hhead⟩, hlast⟩ := hp
  rcases hp1 : p with _ | ⟨c, p1⟩
  · rw [hp1] at hne
    exact absurd hne (by decide)
  · rw [hp1] at hhead hlast
    have hc : bracketChar c = false := by
      simp only [List.head?_cons] at hhead
      simpa using hhead
    rcases hlastc : (c :: p1).getLast? with _ | d
    · exact absurd (List.getLast?_eq_none_iff.mp hlastc) (by simp)
    · have hd : bracketChar d = false := by
        rw [hlastc] at hlast
        simpa using hlast
      unfold sectionNameOf headerLineOf goTrimCutset
      rw [List.dropWhile_cons, if_pos (by rw [contains_brackets]; decide)]
      rw [show ((c :: p1) ++ [']']) = c :: (p1 ++ [']']) from rfl]
      rw [List.dropWhile_cons, if_neg (by rw [contains_brackets, hc]; exact Bool.false_ne_true)]
      rw [show (c :: (p1 ++ [']'])).reverse = (']' :: (c :: p1).reverse : GoStr) from by simp]
      rw [List.dropWhile_cons, if_pos (by rw [contains_brackets]; decide)]
      have hrev : (c :: p1).reverse = d :: ((c :: p1).dropLast).reverse := by
        have h1 := List.dropLast_append_getLast? d hlastc
        calc (c :: p1).reverse = ((c :: p1).dropLast ++ [d]).reverse := by rw [h1]
          _ = d :: ((c :: p1).dropLast).reverse := by simp
      rw [hrev]
      rw [List.dropWhile_cons, if_neg (by rw [contains_brackets, hd]; exact Bool.false_ne_true)]
      rw [← hrev]
      simp

theorem notBlank_of_head (c : Char) (rest : GoStr) (hc : isGoSpace c = false) :
    decide (trimSpace (c :: rest) = []) = false := by
  rw [trimSpace_cons_of_head c rest hc]
  simp

theorem notPrefix_of_head (pc c : Char) (ptail : GoStr) (rest : GoStr)
    (hc : isGoSpace c = false) (hne : (pc == c) = false) :
    goHasPfx (pc :: ptail) (trimSpace (c :: rest)) = false := by
  rw [trimSpace_cons_of_head c rest hc]
  unfold goHasPfx
  simp [List.isPrefixOf, hne]

theorem sectionSkipStep_of_head (T : List GoStr) (skip : Bool) (c : Char) (rest : GoStr)
    (hc : isGoSpace c = false) (hne : ('[' == c) = false) :
    sectionSkipStep T skip (c :: rest) = skip := by
  unfold sectionSkipStep
  dsimp only
  rw [if_neg ?hcond]
  case hcond =>
    have h1 : goHasPfx "[".toList (trimSpace (c :: rest)) = false :=
      notPrefix_of_head '[' c [] rest hc hne
    unfold isSectionHeader
    rw [h1]
    simp

theorem notManaged_of_head (c : Char) (rest : GoStr)
    (hc : isGoSpace c = false) (hne : (';' == c) = false) :
    isManagedComment (trimSpace (c :: rest)) = false := by
  unfold isManagedComment
  exact notPrefix_of_head ';' c _ rest hc hne

/-- The look-ahead target test of sync.go step 4, named. -/
def lookaheadTargetB (T : List GoStr) (rest : List GoStr) : Bool :=
  match lookaheadHeaderName rest with
  | some h => T.contains h
  | none => false

theorem syncFilter_cons_eq (T : List GoStr) (skip : Bool) (l : GoStr) (rest : List GoStr) :
    syncFilter T skip (l :: rest) =
      (if isManagedComment (trimSpace l) && lookaheadTargetB T rest then
        syncFilter T (sectionSkipStep T skip l) rest
      else if sectionSkipStep T skip l then syncFilter T (sectionSkipStep T skip l) rest
      else l :: syncFilter T (sectionSkipStep T skip l) rest) := rfl

theorem lookahead_headerLine (p : GoStr) (rest : List GoStr) :
    lookaheadHeaderName (headerLineOf p :: rest) =
      some (sectionNameOf (headerLineOf p)) := by
  unfold lookaheadHeaderName
  dsimp only
  rw [trimSpace_headerLine]
  rw [if_neg (by unfold headerLineOf goHasPfx; simp [List.isPrefixOf]),
    if_pos (isSectionHeader_headerLine p)]

theorem sectionSkipStep_headerLine (T : List GoStr) (skip : Bool) (p : GoStr)
    (hp : cleanProfile p = true) :
    sectionSkipStep T skip (headerLineOf p) = T.contains p := by
  unfold sectionSkipStep
  dsimp only
  rw [trimSpace_headerLine, if_pos (isSectionHeader_headerLine p),
    sectionNameOf_headerLine p hp]

theorem headerLine_not_managed (p : GoStr) :
    isManagedComment (trimSpace (headerLineOf p)) = false := by
  rw [trimSpace_headerLine]
  unfold isManagedComment headerLineOf goHasPfx
  simp +decide [List.isPrefixOf]

theorem syncFilter_skipTrue_cons (T : List GoStr) (c : Char) (tail : GoStr)
    (rest : List GoStr) (hc : isGoSpace c = false) (hnb : ('[' == c) = false)
    (hnc : (';' == c) = false) :
    syncFilter T true ((c :: tail) :: rest) = syncFilter T true rest := by
  rw [syncFilter_cons_eq]
  rw [notManaged_of_head c tail hc hnc]
  rw [sectionSkipStep_of_head T true c tail hc hnb]
  simp

theorem syncFilter_skipTrue_blank (T : List GoStr) (rest : List GoStr) :
    syncFilter T true ([] :: rest) = syncFilter T true rest := by
  rw [syncFilter_cons_eq]
  have h1 : isManagedComment (trimSpace ([] : GoStr)) = false := by decide
  have h2 : sectionSkipStep T true [] = true := by
    unfold sectionSkipStep
    dsimp only
    rw [if_neg (by decide)]
  rw [h1, h2]
  simp

theorem syncFilter_appendBlocks (T : List GoStr) :
    ∀ active : List AWSSession,
      (∀ s ∈ active, cleanSession s = true) →
      (∀ s ∈ active, T.contains s.Profile = true) →
      ∀ skip, syncFilter T skip (appendBlocks active) = [] := by
  intro active
  induction active with
  | nil => intro _ _ skip; rfl
  | cons s rest ih =>
    intro hclean hmemT skip
    have hcleanS := hclean s (List.mem_cons_self s rest)
    have hTs := hmemT s (List.mem_cons_self s rest)
    have hcleanP : cleanProfile s.Profile = true := by
      unfold cleanSession at hcleanS
      simp only [Bool.and_eq_true] at hcleanS
      exact hcleanS.1.1.1
    have hblocks : appendBlocks (s :: rest) =
        managedCommentOf s :: headerLineOf s.Profile ::
        ("aws_access_key_id = ".toList ++ s.AccessKey) ::
        ("aws_secret_access_key = ".toList ++ s.SecretKey) ::
        ("aws_session_token = ".toList ++ s.SessionToken) ::
        [] :: appendBlocks rest := by
      unfold appendBlocks sessionBlock headerLineOf
      simp
    rw [hblocks]
    rw [syncFilter_cons_eq, sectionSkipStep_managedComment]
    have hlk : lookaheadTargetB T (headerLineOf s.Profile ::
        ("aws_access_key_id = ".toList ++ s.AccessKey) ::
        ("aws_secret_access_key = ".toList ++ s.SecretKey) ::
        ("aws_session_token = ".toList ++ s.SessionToken) ::
        [] :: appendBlocks rest) = true := by
      unfold lookaheadTargetB
      rw [lookahead_headerLine, sectionNameOf_headerLine s.Profile hcleanP]
      exact hTs
    rw [if_pos (by rw [managedCommentOf_isManaged, hlk]; rfl)]
    rw [syncFilter_cons_eq, headerLine_not_managed,
      sectionSkipStep_headerLine T skip s.Profile hcleanP]
    rw [if_neg (by simp), if_pos hTs, hTs]
    rw [show ("aws_access_key_id = ".toList ++ s.AccessKey) =
      'a' :: ("ws_access_key_id = ".toList ++ s.AccessKey) from rfl]
    rw [syncFilter_skipTrue_cons T 'a' _ _ (by decide) (by decide) (by decide)]
    rw [show ("aws_secret_access_key = ".toList ++ s.SecretKey) =
      'a' :: ("ws_secret_access_key = ".toList ++ s.SecretKey) from rfl]
    rw [syncFilter_skipTrue_cons T 'a' _ _ (by decide) (by decide) (by decide)]
    rw [show ("aws_session_token = ".toList ++ s.SessionToken) =
      'a' :: ("ws_session_token = ".toList ++ s.SessionToken) from rfl]
    rw [syncFilter_skipTrue_cons T 'a' _ _ (by decide) (by decide) (by decide)]
    rw [syncFilter_skipTrue_blank]
    exact ih (fun x hx => hclean x (List.mem_cons_of_mem s hx))
      (fun x hx => hmemT x (List.mem_cons_of_mem s hx)) true

theorem syncFilter_prefix_keep (T : List GoStr) (suffix : List GoStr) :
    ∀ P : List GoStr,
      (∀ l ∈ P, isSectionHeader (trimSpace l) = true →
        T.contains (sectionNameOf (trimSpace l)) = false) →
      noDanglingManaged P = true →
      syncFilter T false (P ++ suffix) = P ++ syncFilter T false suffix := by
  intro P
  induction P with
  | nil => intro _ _; rfl
  | cons l rest ih =>
    intro hhead hnd
    have hnd1 : ((!(isManagedComment (trimSpace l)) || hasRealLine rest) = true) ∧
        noDanglingManaged rest = true := by
      unfold noDanglingManaged at hnd
      rw [Bool.and_eq_true] at hnd
      exact hnd
    have hskip1 : sectionSkipStep T false l = false := by
      unfold sectionSkipStep
      dsimp only
      by_cases hh : isSectionHeader (trimSpace l) = true
      · rw [if_pos hh]
        exact hhead l (List.mem_cons_self l rest) hh
      · rw [if_neg hh]
    have hdropC : (isManagedComment (trimSpace l) &&
        lookaheadTargetB T (rest ++ suffix)) = false := by
      by_cases hm : isManagedComment (trimSpace l) = true
      · have hreal : hasRealLine rest = true := by
          have h2 := hnd1.1
          rw [hm] at h2
          simpa using h2
        rw [hm]
        unfold lookaheadTargetB
        rw [lookahead_append_of_hasRealLine suffix rest hreal]
        rcases hla : lookaheadHeaderName rest with _ | hname
        · simp
        · obtain ⟨l1, hl1, hhdr1, hnameeq⟩ := lookahead_mem hla
          have hc := hhead l1 (List.mem_cons_of_mem l hl1) hhdr1
          subst hnameeq
          simp [hc]
          simpa using hc
      · rw [Bool.not_eq_true] at hm
        rw [hm]
        simp
    rw [show (l :: rest) ++ suffix = l :: (rest ++ suffix) from rfl]
    rw [syncFilter_cons_eq, hskip1, hdropC]
    simp only [Bool.false_eq_true, if_false]
    rw [ih (fun x hx hhx => hhead x (List.mem_cons_of_mem l hx) hhx) hnd1.2]
    rfl
/-- Bool contains agrees with membership. -/
theorem contains_of_mem {a : Type} [BEq a] [LawfulBEq a] {l : List a} {x : a}
    (h : x ∈ l) : l.contains x = true :=
  List.elem_eq_true_of_mem h

/-- The managed comment line written by sync contains no newline. -/
theorem no_newline_managedComment (s : AWSSession) : '\n' ∉ managedCommentOf s := by
  unfold managedCommentOf
  dsimp only
  intro h
  by_cases hR : s.RoleArn = mfaSentinel
  · rw [if_pos hR] at h
    simp only [List.mem_append] at h
    rcases h with ((h | h) | h) | h
    · exact absurd h (by decide)
    · exact absurd h (by decide)
    · exact absurd h (by decide)
    · exact formatInt_no_newline h
  · rw [if_neg hR] at h
    simp only [List.mem_append] at h
    rcases h with ((h | h) | h) | h
    · exact absurd h (by decide)
    · exact absurd h (by decide)
    · exact absurd h (by decide)
    · exact formatInt_no_newline h

/-- The section header line of a newline-free profile contains no newline. -/
theorem no_newline_headerLine (p : GoStr) (hp : p.contains '\n' = false) :
    '\n' ∉ headerLineOf p := by
  unfold headerLineOf
  intro h
  rcases List.mem_cons.mp h with h | h
  · exact absurd h (by decide)
  · rw [List.mem_append] at h
    rcases h with h | h
    · have h2 := contains_of_mem h
      rw [hp] at h2
      exact Bool.noConfusion h2
    · exact absurd h (by decide)

/-- Every line written in the appended blocks of clean sessions is free of
newlines, so the split-join round trip preserves them. -/
theorem no_newline_appendBlocks (active : List AWSSession)
    (hclean : ∀ s ∈ active, cleanSession s = true) :
    ∀ l ∈ appendBlocks active, '\n' ∉ l := by
  intro l hl
  unfold appendBlocks at hl
  rw [List.mem_flatten] at hl
  obtain ⟨bl, hbl, hlbl⟩ := hl
  rw [List.mem_map] at hbl
  obtain ⟨s, hs, hbleq⟩ := hbl
  subst hbleq
  have hc := hclean s hs
  unfold cleanSession cleanProfile at hc
  simp only [Bool.and_eq_true] at hc
  obtain ⟨⟨⟨⟨⟨⟨hP1, hP2⟩, hP3⟩, hP4⟩, hA⟩, hS⟩, hT⟩ := hc
  unfold sessionBlock at hlbl
  simp only [List.mem_cons, List.not_mem_nil, or_false] at hlbl
  rcases hlbl with rfl | rfl | rfl | rfl | rfl | rfl
  · exact no_newline_managedComment s
  · exact no_newline_headerLine s.Profile (by simpa using hP2)
  · intro h
    rw [List.mem_append] at h
    rcases h with h | h
    · exact absurd h (by decide)
    · have h1 : s.AccessKey.contains '\n' = false := by simpa using hA
      have h2 := contains_of_mem h
      rw [h1] at h2
      exact Bool.noConfusion h2
  · intro h
    rw [List.mem_append] at h
    rcases h with h | h
    · exact absurd h (by decide)
    · have h1 : s.SecretKey.contains '\n' = false := by simpa using hS
      have h2 := contains_of_mem h
      rw [h1] at h2
      exact Bool.noConfusion h2
  · intro h
    rw [List.mem_append] at h
    rcases h with h | h
    · exact absurd h (by decide)
    · have h1 : s.SessionToken.contains '\n' = false := by simpa using hT
      have h2 := contains_of_mem h
      rw [h1] at h2
      exact Bool.noConfusion h2
  · simp

/-- A blank line is kept as-is by the sync walk when no skip is active. -/
theorem syncFilter_skipFalse_blank (T : List GoStr) (rest : List GoStr) :
    syncFilter T false ([] :: rest) = [] :: syncFilter T false rest := by
  rw [syncFilter_cons_eq]
  have h2 : sectionSkipStep T false [] = false := by
    unfold sectionSkipStep
    dsimp only
    rw [if_neg (by decide)]
  have h1 : isManagedComment (trimSpace ([] : GoStr)) = false := by decide
  rw [h1, h2]
  simp

/-- A non-empty session list appends a non-empty block list. -/
theorem appendBlocks_ne_nil (s : AWSSession) (rest : List AWSSession) :
    appendBlocks (s :: rest) ≠ [] := by
  unfold appendBlocks sessionBlock
  simp

/-- The rewrite of the existing lines, case-split on whether any prior
lines survive the filter: the appended blocks alone, or the kept prefix
followed by a blank separator and the blocks. -/
theorem rewriteCreds_cases (L0 : List GoStr) (active : List AWSSession) :
    rewriteCreds L0 active =
      (if stripTrailingBlank (syncFilter (active.map (fun s => s.Profile)) false L0) = []
       then appendBlocks active
       else stripTrailingBlank (syncFilter (active.map (fun s => s.Profile)) false L0) ++
         [] :: appendBlocks active) := by
  unfold rewriteCreds
  dsimp only
  by_cases hP : stripTrailingBlank (syncFilter (active.map (fun s => s.Profile)) false L0) = []
  · rw [if_pos hP, hP]
    rw [if_neg (by simp)]
    rfl
  · rw [if_neg hP]
    rw [if_pos ⟨hP, stripTrailingBlank_getLast_ne_blank hP⟩]
    simp

/-- Re-running the rewrite on its own output changes nothing, provided
the sessions are clean and no managed comment dangles among the kept
lines. -/
theorem rewriteCreds_stable (L0 : List GoStr) (active : List AWSSession)
    (hclean : ∀ s ∈ active, cleanSession s = true)
    (hnd : noDanglingManaged (stripTrailingBlank
      (syncFilter (active.map (fun s => s.Profile)) false L0)) = true) :
    rewriteCreds (rewriteCreds L0 active) active = rewriteCreds L0 active := by
  have hTmem : ∀ s ∈ active, (active.map (fun s => s.Profile)).contains s.Profile = true :=
    fun s hs => contains_of_mem (List.mem_map_of_mem _ hs)
  have hhead : ∀ l ∈ stripTrailingBlank
      (syncFilter (active.map (fun s => s.Profile)) false L0),
      isSectionHeader (trimSpace l) = true →
      (active.map (fun s => s.Profile)).contains (sectionNameOf (trimSpace l)) = false :=
    fun l hl hh => syncFilter_no_target_header (mem_stripTrailingBlank hl) hh
  rw [rewriteCreds_cases L0 active]
  by_cases hP : stripTrailingBlank (syncFilter (active.map (fun s => s.Profile)) false L0) = []
  · rw [if_pos hP]
    rw [rewriteCreds_cases (appendBlocks active) active]
    rw [syncFilter_appendBlocks (active.map (fun s => s.Profile)) active hclean hTmem false]
    rw [if_pos (by rfl)]
  · rw [if_neg hP]
    rw [rewriteCreds_cases _ active]
    have hfilter : syncFilter (active.map (fun s => s.Profile)) false
        (stripTrailingBlank (syncFilter (active.map (fun s => s.Profile)) false L0) ++
          [] :: appendBlocks active) =
        stripTrailingBlank (syncFilter (active.map (fun s => s.Profile)) false L0) ++ [[]] := by
      rw [syncFilter_prefix_keep (active.map (fun s => s.Profile)) ([] :: appendBlocks active)
        (stripTrailingBlank (syncFilter (active.map (fun s => s.Profile)) false L0)) hhead hnd]
      rw [syncFilter_skipFalse_blank]
      rw [syncFilter_appendBlocks (active.map (fun s => s.Profile)) active hclean hTmem false]
    rw [hfilter]
    rw [stripTrailingBlank_append_blank, stripTrailingBlank_idem]
    rw [if_neg hP]

def c8now : GoTime := ⟨0, 0⟩

def c8sessA : AWSSession :=
  ⟨"AKA".toList, "SKA".toList, "TKA".toList, ⟨100, 0⟩, "pa".toList,
   "arn-a".toList, [], [], [], [], 0, false⟩

def c8sessB : AWSSession :=
  ⟨"AKB".toList, "SKB".toList, "TKB".toList, ⟨100, 0⟩, "pb".toList,
   "arn-b".toList, [], [], [], [], 0, false⟩

/-- A credentials file consisting of one dangling cloudctl-managed
comment: no section follows it. -/
def c8dangling : GoStr := "; Managed by cloudctl (Role Session) - Expires: 1".toList

/-- The bytes the first sync over the dangling-comment file writes. -/
def c8bytes1 : GoStr := joinLinesCL (rewriteCreds (splitLinesCL c8dangling) [c8sessA])

set_option maxRecDepth 40000 in
/-- Claim C8, counterexample: two consecutive sync calls with identical
inputs need not produce byte-identical credentials files.  First, the
written bytes depend on the enumeration order of the stored sessions,
which models the unspecified Go map iteration order in ListAllSessions:
the same two stored sessions enumerated in the two orders give different
bytes.  Second, even with a fixed enumeration order, a file holding a
dangling managed comment (no section after it) is not a fixed point: the
first run keeps the dangling comment and appends the managed block, and
the second run then sees the appended target header as the comment's
look-ahead section and deletes the comment. -/
theorem c8_sync_idempotence_cex :
    ((SyncAllToAWS [c8sessA, c8sessB] none c8now).1 ≠
      (SyncAllToAWS [c8sessB, c8sessA] none c8now).1) ∧
    (SyncAllToAWS [c8sessA] (some c8dangling) c8now).1 = some c8bytes1 ∧
    (SyncAllToAWS [c8sessA] (some c8bytes1) c8now).1 ≠ some c8bytes1 := by
  decide

/-- Applying the rewrite to the written bytes of a previous rewrite
reproduces those bytes, for newline-free prior lines, clean sessions and
no dangling managed comment among the kept lines. -/
theorem sync_idem_lines (active : List AWSSession) (L0 : List GoStr)
    (hane : active ≠ [])
    (hclean : ∀ s ∈ active, cleanSession s = true)
    (hnl0 : ∀ l ∈ L0, '\n' ∉ l)
    (hnd : noDanglingManaged (stripTrailingBlank
      (syncFilter (active.map (fun s => s.Profile)) false L0)) = true) :
    joinLinesCL (rewriteCreds (splitLinesCL (joinLinesCL (rewriteCreds L0 active))) active) =
      joinLinesCL (rewriteCreds L0 active) := by
  have hRne : rewriteCreds L0 active ≠ [] := by
    rw [rewriteCreds_cases]
    obtain ⟨s0, rest, heq⟩ := List.exists_cons_of_ne_nil hane
    by_cases hP : stripTrailingBlank (syncFilter (active.map (fun s => s.Profile)) false L0) = []
    · rw [if_pos hP, heq]
      exact appendBlocks_ne_nil s0 rest
    · rw [if_neg hP]
      intro hcontra
      have h2 := List.append_eq_nil.mp hcontra
      exact List.cons_ne_nil _ _ h2.2
  have hnl : ∀ l ∈ rewriteCreds L0 active, '\n' ∉ l := by
    intro l hl
    rw [rewriteCreds_cases] at hl
    by_cases hP : stripTrailingBlank (syncFilter (active.map (fun s => s.Profile)) false L0) = []
    · rw [if_pos hP] at hl
      exact no_newline_appendBlocks _ hclean l hl
    · rw [if_neg hP] at hl
      rw [List.mem_append] at hl
      rcases hl with hl | hl
      · exact hnl0 l (mem_syncFilter (mem_stripTrailingBlank hl))
      · rcases List.mem_cons.mp hl with rfl | hl
        · exact List.not_mem_nil _
        · exact no_newline_appendBlocks _ hclean l hl
  rw [splitLinesCL_joinLinesCL _ hRne hnl]
  rw [rewriteCreds_stable L0 active hclean hnd]

/-- Claim C8, amended: two consecutive sync calls produce byte-identical
credentials files provided the stored sessions are enumerated in the
same order on both runs, every session is clean (non-empty bracket-free
profile, no newlines in the written fields), and no cloudctl-managed
comment dangles among the lines the first run keeps. -/
theorem c8_sync_idempotent_amended
    (sessions : List AWSSession) (existing : Option GoStr) (now : GoTime) (bytes1 : GoStr)
    (h1 : (SyncAllToAWS sessions existing now).1 = some bytes1)
    (hclean : ∀ s ∈ sessions, cleanSession s = true)
    (hnd : noDanglingManaged (stripTrailingBlank (syncFilter
        ((sessions.filter (fun s => s.Expiration.after now)).map (fun s => s.Profile)) false
        (match existing with
         | some content => splitLinesCL content
         | none => []))) = true) :
    (SyncAllToAWS sessions (some bytes1) now).1 = some bytes1 := by
  have hcleanA : ∀ s ∈ sessions.filter (fun s => s.Expiration.after now),
      cleanSession s = true :=
    fun s hs => hclean s (List.mem_of_mem_filter hs)
  unfold SyncAllToAWS at h1 ⊢
  by_cases hse : sessions.isEmpty = true
  · rw [if_pos hse] at h1
    exact Option.noConfusion h1
  rw [if_neg hse] at h1 ⊢
  dsimp only at h1 ⊢
  by_cases hae : (sessions.filter (fun s => s.Expiration.after now)).isEmpty = true
  · rw [if_pos hae] at h1
    exact Option.noConfusion h1
  rw [if_neg hae] at h1 ⊢
  dsimp only at h1 ⊢
  have hane : sessions.filter (fun s => s.Expiration.after now) ≠ [] := by
    intro h
    rw [h] at hae
    exact hae rfl
  rcases existing with _ | content
  · dsimp only at h1 hnd
    have hb := Option.some.inj h1
    rw [← hb]
    exact congrArg some (sync_idem_lines _ []
      hane hcleanA (fun l hl => absurd hl (List.not_mem_nil l)) hnd)
  · dsimp only at h1 hnd
    have hb := Option.some.inj h1
    rw [← hb]
    exact congrArg some (sync_idem_lines _ (splitLinesCL content)
      hane hcleanA (mem_splitLinesCL_no_newline content) hnd)

/-- The rewrite of an empty prior file by the single clean session. -/
def c8wBytes : GoStr := joinLinesCL (rewriteCreds [] [c8sessA])

set_option maxRecDepth 40000 in
theorem c8_sync_idempotent_amended_witness :
    (SyncAllToAWS [c8sessA] none c8now).1 = some c8wBytes ∧
    (SyncAllToAWS [c8sessA] (some c8wBytes) c8now).1 = some c8wBytes :=
  ⟨by decide,
   c8_sync_idempotent_amended [c8sessA] none c8now c8wBytes (by decide) (by decide) (by decide)⟩
